import Mathlib

/-!
Verification of the `unilangs` library: a shallow embedding of the BCP47 tag
parser (`unilangs/bcp47/parser.py`), the strict / best-fit code converters
(`unilangs/bcp47/converter.py`) and the standard registry
(`unilangs/unilangs.py`), together with theorems checking the library's
specification against this embedding.

Python strings are modelled as `List Char` (the inputs are ASCII); Python
dicts are modelled as insertion-ordered association lists whose assignment
updates an existing key in place and appends a fresh key at the end.
-/

set_option maxRecDepth 100000

namespace Unilangs

/-- Python strings, modelled as lists of characters. -/
abbrev S := List Char

/-! ### Python dict modelling: insertion-ordered association lists -/

/-- `d[k]` as an `Option`: the value stored under `k`, if present. -/
def alookup {α β : Type} [DecidableEq α] : List (α × β) → α → Option β
  | [], _ => none
  | (k, v) :: rest, key => if key = k then some v else alookup rest key

/-- `d[k] = v`: replace the binding in place when `k` is present (keeping its
position, as Python dict assignment does), otherwise append it at the end. -/
def alistSet {α β : Type} [DecidableEq α] : List (α × β) → α → β → List (α × β)
  | [], key, value => [(key, value)]
  | (k, v) :: rest, key, value =>
    if k = key then (k, value) :: rest else (k, v) :: alistSet rest key value

/-- `del d[k]`: drop every binding of `k` (a well-formed dict has at most one). -/
def alistDel {α β : Type} [DecidableEq α] : List (α × β) → α → List (α × β)
  | [], _ => []
  | (k, v) :: rest, key => if k = key then alistDel rest key else (k, v) :: alistDel rest key

theorem alookup_mem {α β : Type} [DecidableEq α] {d : List (α × β)} {k : α} {v : β}
    (h : alookup d k = some v) : (k, v) ∈ d := by
  induction d with
  | nil => simp [alookup] at h
  | cons hd tl ih =>
    obtain ⟨k', v'⟩ := hd
    by_cases hk : k = k'
    · subst hk
      simp [alookup] at h
      simp [h]
    · simp [alookup, hk] at h
      exact List.mem_cons_of_mem _ (ih h)

theorem alookup_alistSet {α β : Type} [DecidableEq α] (d : List (α × β)) (k : α) (v : β)
    (x : α) : alookup (alistSet d k v) x = if x = k then some v else alookup d x := by
  induction d with
  | nil => by_cases hx : x = k <;> simp [alistSet, alookup, hx]
  | cons hd tl ih =>
    obtain ⟨k', v'⟩ := hd
    by_cases hk : k' = k
    · subst hk
      by_cases hx : x = k' <;> simp [alistSet, alookup, hx]
    · by_cases hx : x = k'
      · subst hx
        simp [alistSet, hk, alookup, Ne.symm hk]
      · simp [alistSet, hk, alookup, hx, ih]

instance {ε α : Type} [DecidableEq ε] [DecidableEq α] : DecidableEq (Except ε α) := fun x y =>
  match x, y with
  | .ok a, .ok b =>
    if h : a = b then .isTrue (by rw [h]) else .isFalse (fun hc => h (Except.ok.inj hc))
  | .error a, .error b =>
    if h : a = b then .isTrue (by rw [h]) else .isFalse (fun hc => h (Except.error.inj hc))
  | .ok _, .error _ => .isFalse (fun hc => Except.noConfusion hc)
  | .error _, .ok _ => .isFalse (fun hc => Except.noConfusion hc)

/-! ### BCP47 parser embedding (`unilangs/bcp47/parser.py`) -/

/-- A record of the IANA subtag registry, as far as the parsed code uses it:
its `subtag` (or whole `tag` for grandfathered entries) and its optional
`preferred_value`. -/
structure SubtagEntry where
  subtag : S
  preferred_value : Option S
deriving DecidableEq

/-- The registry tables the parser consults (`LANGUAGE_SUBTAGS`,
`EXTLANG_SUBTAGS`, ... in `registry.py`), keyed by lowercased subtag/tag. -/
structure Registry where
  language : List (S × SubtagEntry)
  extlang : List (S × SubtagEntry)
  script : List (S × SubtagEntry)
  region : List (S × SubtagEntry)
  variant : List (S × SubtagEntry)
  grandfathered : List (S × SubtagEntry)
deriving DecidableEq

/-- The errors raised by `_parse_code` / `_parse_extensions`, one constructor
per distinct raise site of `MalformedLanguageCodeException`. -/
inductive ParseError where
  /-- "Garbage '%s' at the end of the language code!" -/
  | garbage (piece : S)
  /-- "Invalid language code (malformed hyphen)!" -/
  | malformedHyphen
  /-- "Encountered a singleton extension tag '%s' without data!" -/
  | singletonWithoutData (tag : S)
  /-- "Encountered a duplicate singleton extension tag '%s'!" -/
  | duplicateSingleton (tag : S)
  /-- "Invalid primary language '%s'!" -/
  | invalidPrimaryLanguage (piece : S)
deriving DecidableEq

/-- The spec's `MalformedTagError` class: every structural violation. -/
def ParseError.isMalformedTagError : ParseError → Bool
  | .garbage _ => true
  | .malformedHyphen => true
  | .singletonWithoutData _ => true
  | .duplicateSingleton _ => true
  | .invalidPrimaryLanguage _ => false

/-- The spec's `InvalidLanguageError` class: primary language not registered. -/
def ParseError.isInvalidLanguageError : ParseError → Bool
  | .invalidPrimaryLanguage _ => true
  | _ => false

/-- The result of `_parse_code`: the dict of parsed parts. -/
structure ParsedTag where
  language : Option SubtagEntry
  extlang : Option SubtagEntry
  script : Option SubtagEntry
  region : Option SubtagEntry
  variants : List SubtagEntry
  grandfathered : Option SubtagEntry
  extensions : List (S × List S)
deriving DecidableEq

/-- Python `code.lower()` (charwise, the inputs being ASCII). -/
def lowerS (s : S) : S := s.map Char.toLower

/-- Python `code.split('-')`: split on every hyphen, keeping empty pieces. -/
def pySplit : S → List S
  | [] => [[]]
  | c :: cs =>
    let r := pySplit cs
    if c = '-' then [] :: r
    else
      match r with
      | h :: t => (c :: h) :: t
      | [] => [[c]]

/-- `_next_chunk`: `code.split('-', 1) if '-' in code else (code, '')`. -/
def nextChunk : S → S × S
  | [] => ([], [])
  | c :: cs =>
    if c = '-' then ([], cs)
    else
      let (a, b) := nextChunk cs
      (c :: a, b)

/-- `_split_at(lambda el: len(el) == 1, bits)`: split a list into runs, each
starting at an element satisfying the predicate.  `cur` is the `next`
accumulator of the Python generator (`none` is its initial `None` sentinel). -/
def splitAtSingleton (cur : Option (List S)) : List S → List (List S)
  | [] =>
    match cur with
    | some c => if c = [] then [] else [c]
    | none => []
  | el :: rest =>
    if el.length = 1 then
      match cur with
      | some c => c :: splitAtSingleton (some [el]) rest
      | none => splitAtSingleton (some [el]) rest
    else
      match cur with
      | some c => splitAtSingleton (some (c ++ [el])) rest
      | none => splitAtSingleton (some [el]) rest

/-- The `for chunk in chunks` loop of `_parse_extensions`: check each run and
insert it into the results dict. -/
def extensionsLoop : List (List S) → List (S × List S) → Except ParseError (List (S × List S))
  | [], results => .ok results
  | chunk :: rest, results =>
    match chunk with
    | [] => .error (.garbage [])
    | tag :: data =>
      if data = [] then .error (.singletonWithoutData tag)
      else if (alookup results tag).isSome then .error (.duplicateSingleton tag)
      else extensionsLoop rest (results ++ [(tag, data)])

/-- `_parse_extensions(code)`. -/
def parseExtensions (code : S) : Except ParseError (List (S × List S)) :=
  let bits := pySplit code
  if bits.any (fun bit => bit = []) then .error (.garbage code)
  else
    let chunks := splitAtSingleton none bits
    match chunks with
    | [] => .ok []
    | firstChunk :: _ =>
      match firstChunk with
      | [] => .error (.garbage code)
      | firstPiece :: _ =>
        if firstPiece.length ≠ 1 then .error (.garbage code)
        else extensionsLoop chunks []

/-- `_parse_subtag(next, code, reg)`. -/
def parseSubtag (next code : S) (reg : List (S × SubtagEntry)) :
    Option SubtagEntry × S × S :=
  match alookup reg next with
  | some st =>
    let (next', code') := nextChunk code
    (some st, next', code')
  | none => (none, next, code)

/-- The `while variant` loop of `_parse_variants`, with explicit fuel (the
Python loop terminates for every registry whose keys are nonempty subtags;
the caller passes more fuel than the loop can ever consume then). -/
def parseVariantsF (fuel : Nat) (next code : S) (reg : List (S × SubtagEntry)) :
    List SubtagEntry × S × S :=
  match fuel with
  | 0 => ([], next, code)
  | fuel' + 1 =>
    match alookup reg next with
    | none => ([], next, code)
    | some v =>
      let (next', code') := nextChunk code
      let (vs, next'', code'') := parseVariantsF fuel' next' code' reg
      (v :: vs, next'', code'')

/-- `code.startswith('x-')`. -/
def startsWithXDash : S → Bool
  | 'x' :: '-' :: _ => true
  | _ => false

/-- An empty parse result, as initialized at the top of `_parse_code`. -/
def emptyTag : ParsedTag :=
  { language := none, extlang := none, script := none, region := none,
    variants := [], grandfathered := none, extensions := [] }

/-- `_parse_code(code)` (and hence `parse_code`, whose `_validate` step is the
identity on every parse result). -/
def parseCode (reg : Registry) (codeStr : S) : Except ParseError ParsedTag :=
  let code := lowerS codeStr
  match alookup reg.grandfathered code with
  | some g => .ok { emptyTag with grandfathered := some g }
  | none =>
    if startsWithXDash code then
      (parseExtensions code).map fun exts => { emptyTag with extensions := exts }
    else if (pySplit code).any (fun c => c = []) then
      .error .malformedHyphen
    else
      let (language, code₁) := nextChunk code
      match alookup reg.language language with
      | none => .error (.invalidPrimaryLanguage language)
      | some lentry =>
        let (next₀, code₂) := nextChunk code₁
        let (extl, next₁, code₃) := parseSubtag next₀ code₂ reg.extlang
        let (scr, next₂, code₄) := parseSubtag next₁ code₃ reg.script
        let (rgn, next₃, code₅) := parseSubtag next₂ code₄ reg.region
        let (vars, next₄, code₆) :=
          parseVariantsF (next₃.length + code₅.length + 2) next₃ code₅ reg.variant
        if next₄ ≠ [] ∧ code₆ = [] then .error (.garbage next₄)
        else if next₄ ≠ [] then
          (parseExtensions (next₄ ++ '-' :: code₆)).map fun exts =>
            { language := some lentry, extlang := extl, script := scr, region := rgn,
              variants := vars, grandfathered := none, extensions := exts }
        else
          .ok { language := some lentry, extlang := extl, script := scr, region := rgn,
                variants := vars, grandfathered := none, extensions := [] }

/-! ### BCP47 converter embedding (`unilangs/bcp47/converter.py`) -/

/-- Keys of the BCP47 conversion dicts: `(language, region, script)`, each
component nullable (the converter probes with `None` for absent parts). -/
abbrev K := Option S × Option S × Option S

/-- The errors of the conversion layer: propagated parse errors, the
`KeyError("Could not find Unilangs language ...")` of the lookup dicts, the
`Exception("Standard '%s' is not registred")` of `LanguageCode.__init__`, and
plain dict `KeyError`s. -/
inductive UErr where
  | parseErr (e : ParseError)
  | notFoundKey (k : K)
  | unknownStandard (name : S)
  | keyError (key : S)
deriving DecidableEq

/-- The `data` tuples of `_make_bcp47_to_unilangs`:
`(unilangs code, BCP47 language, region, script)`. -/
def bcp47Data : List (S × S × Option S × Option S) := [
    ("aa".data, "aa".data, none, none),
    ("ab".data, "ab".data, none, none),
    ("ae".data, "ae".data, none, none),
    ("af".data, "af".data, none, none),
    ("aka".data, "ak".data, none, none),
    ("amh".data, "am".data, none, none),
    ("an".data, "an".data, none, none),
    ("ar".data, "ar".data, none, none),
    ("arq".data, "aao".data, none, none),
    ("as".data, "as".data, none, none),
    ("ase".data, "ase".data, none, none),
    ("ast".data, "ast".data, none, none),
    ("av".data, "av".data, none, none),
    ("ay".data, "ay".data, none, none),
    ("az".data, "az".data, none, none),
    ("ba".data, "ba".data, none, none),
    ("bam".data, "bm".data, none, none),
    ("be".data, "be".data, none, none),
    ("ber".data, "ber".data, none, none),
    ("bg".data, "bg".data, none, none),
    ("bh".data, "bh".data, none, none),
    ("bi".data, "bi".data, none, none),
    ("bn".data, "bn".data, none, none),
    ("bnt".data, "bnt".data, none, none),
    ("bo".data, "bo".data, none, none),
    ("br".data, "br".data, none, none),
    ("bs".data, "bs".data, none, none),
    ("bug".data, "bug".data, none, none),
    ("ca".data, "ca".data, none, none),
    ("ce".data, "ce".data, none, none),
    ("ceb".data, "ceb".data, none, none),
    ("ch".data, "ch".data, none, none),
    ("cho".data, "cho".data, none, none),
    ("co".data, "co".data, none, none),
    ("cr".data, "cr".data, none, none),
    ("cs".data, "cs".data, none, none),
    ("cu".data, "cu".data, none, none),
    ("cv".data, "cv".data, none, none),
    ("cy".data, "cy".data, none, none),
    ("da".data, "da".data, none, none),
    ("de".data, "de".data, none, none),
    ("dv".data, "dv".data, none, none),
    ("dz".data, "dz".data, none, none),
    ("ee".data, "ee".data, none, none),
    ("efi".data, "efi".data, none, none),
    ("el".data, "el".data, none, none),
    ("en".data, "en".data, none, none),
    ("en-gb".data, "en".data, some "gb".data, none),
    ("eo".data, "eo".data, none, none),
    ("es".data, "es".data, none, none),
    ("es-ar".data, "es".data, some "ar".data, none),
    ("es-mx".data, "es".data, some "mx".data, none),
    ("es-ni".data, "es".data, some "ni".data, none),
    ("et".data, "et".data, none, none),
    ("eu".data, "eu".data, none, none),
    ("fa".data, "fa".data, none, none),
    ("ff".data, "ff".data, none, none),
    ("fi".data, "fi".data, none, none),
    ("fil".data, "fil".data, none, none),
    ("fj".data, "fj".data, none, none),
    ("fo".data, "fo".data, none, none),
    ("fr".data, "fr".data, none, none),
    ("fr-ca".data, "fr".data, some "ca".data, none),
    ("ful".data, "ff".data, none, none),
    ("fy-nl".data, "fy".data, none, none),
    ("ga".data, "ga".data, none, none),
    ("gd".data, "gd".data, none, none),
    ("gl".data, "gl".data, none, none),
    ("gn".data, "gn".data, none, none),
    ("gu".data, "gu".data, none, none),
    ("gv".data, "gv".data, none, none),
    ("hai".data, "hai".data, none, none),
    ("hau".data, "ha".data, none, none),
    ("haz".data, "haz".data, none, none),
    ("he".data, "he".data, none, none),
    ("hi".data, "hi".data, none, none),
    ("ho".data, "ho".data, none, none),
    ("hr".data, "hr".data, none, none),
    ("ht".data, "ht".data, none, none),
    ("hu".data, "hu".data, none, none),
    ("hup".data, "hup".data, none, none),
    ("hy".data, "hy".data, none, none),
    ("hz".data, "hz".data, none, none),
    ("ia".data, "ia".data, none, none),
    ("ibo".data, "ig".data, none, none),
    ("id".data, "id".data, none, none),
    ("ie".data, "ie".data, none, none),
    ("ii".data, "ii".data, none, none),
    ("ik".data, "ik".data, none, none),
    ("ilo".data, "ilo".data, none, none),
    ("inh".data, "inh".data, none, none),
    ("io".data, "io".data, none, none),
    ("iro".data, "iro".data, none, none),
    ("is".data, "is".data, none, none),
    ("it".data, "it".data, none, none),
    ("iu".data, "iu".data, none, none),
    ("ja".data, "ja".data, none, none),
    ("jv".data, "jv".data, none, none),
    ("ka".data, "ka".data, none, none),
    ("kar".data, "kar".data, none, none),
    ("kau".data, "kr".data, none, none),
    ("kik".data, "ki".data, none, none),
    ("kin".data, "rw".data, none, none),
    ("kj".data, "kj".data, none, none),
    ("kk".data, "kk".data, none, none),
    ("kl".data, "kl".data, none, none),
    ("km".data, "km".data, none, none),
    ("kn".data, "kn".data, none, none),
    ("ko".data, "ko".data, none, none),
    ("kon".data, "kg".data, none, none),
    ("ks".data, "ks".data, none, none),
    ("ku".data, "ku".data, none, none),
    ("kv".data, "kv".data, none, none),
    ("kw".data, "kw".data, none, none),
    ("ky".data, "ky".data, none, none),
    ("la".data, "la".data, none, none),
    ("lb".data, "lb".data, none, none),
    ("lg".data, "lg".data, none, none),
    ("li".data, "li".data, none, none),
    ("lin".data, "ln".data, none, none),
    ("lkt".data, "lkt".data, none, none),
    ("lo".data, "lo".data, none, none),
    ("lt".data, "lt".data, none, none),
    ("lu".data, "lu".data, none, none),
    ("lua".data, "lua".data, none, none),
    ("luo".data, "luo".data, none, none),
    ("luy".data, "luy".data, none, none),
    ("lv".data, "lv".data, none, none),
    ("mad".data, "mad".data, none, none),
    ("mh".data, "mh".data, none, none),
    ("mi".data, "mi".data, none, none),
    ("mk".data, "mk".data, none, none),
    ("ml".data, "ml".data, none, none),
    ("mlg".data, "mg".data, none, none),
    ("mn".data, "mn".data, none, none),
    ("mnk".data, "mnk".data, none, none),
    ("mo".data, "mo".data, none, none),
    ("moh".data, "moh".data, none, none),
    ("mni".data, "mni".data, none, none),
    ("mos".data, "mos".data, none, none),
    ("mr".data, "mr".data, none, none),
    ("ms".data, "ms".data, none, none),
    ("mt".data, "mt".data, none, none),
    ("my".data, "my".data, none, none),
    ("nan".data, "nan".data, none, none),
    ("na".data, "na".data, none, none),
    ("nb".data, "nb".data, none, none),
    ("nd".data, "nd".data, none, none),
    ("ne".data, "ne".data, none, none),
    ("ng".data, "ng".data, none, none),
    ("nl".data, "nl".data, none, none),
    ("nn".data, "nn".data, none, none),
    ("no".data, "no".data, none, none),
    ("nr".data, "nr".data, none, none),
    ("nso".data, "nso".data, none, none),
    ("nv".data, "nv".data, none, none),
    ("nya".data, "ny".data, none, none),
    ("oc".data, "oc".data, none, none),
    ("oji".data, "oj".data, none, none),
    ("or".data, "or".data, none, none),
    ("orm".data, "om".data, none, none),
    ("os".data, "os".data, none, none),
    ("pam".data, "pam".data, none, none),
    ("pap".data, "pap".data, none, none),
    ("pan".data, "pa".data, none, none),
    ("pi".data, "pi".data, none, none),
    ("pl".data, "pl".data, none, none),
    ("pnb".data, "pnb".data, none, none),
    ("prs".data, "prs".data, none, none),
    ("ps".data, "ps".data, none, none),
    ("pt".data, "pt".data, none, none),
    ("pt-br".data, "pt".data, some "br".data, none),
    ("que".data, "qu".data, none, none),
    ("rm".data, "rm".data, none, none),
    ("ro".data, "ro".data, none, none),
    ("ru".data, "ru".data, none, none),
    ("run".data, "rn".data, none, none),
    ("rup".data, "rup".data, none, none),
    ("ry".data, "rue".data, none, none),
    ("sa".data, "sa".data, none, none),
    ("sc".data, "sc".data, none, none),
    ("sd".data, "sd".data, none, none),
    ("se".data, "se".data, none, none),
    ("sg".data, "sg".data, none, none),
    ("sh".data, "sh".data, none, none),
    ("si".data, "si".data, none, none),
    ("sk".data, "sk".data, none, none),
    ("skx".data, "skx".data, none, none),
    ("sl".data, "sl".data, none, none),
    ("sm".data, "sm".data, none, none),
    ("sna".data, "sn".data, none, none),
    ("som".data, "so".data, none, none),
    ("sot".data, "st".data, none, none),
    ("sq".data, "sq".data, none, none),
    ("sr".data, "sr".data, none, none),
    ("sr-latn".data, "sr".data, none, some "latn".data),
    ("ss".data, "ss".data, none, none),
    ("su".data, "su".data, none, none),
    ("sv".data, "sv".data, none, none),
    ("swa".data, "sw".data, none, none),
    ("ta".data, "ta".data, none, none),
    ("tet".data, "tet".data, none, none),
    ("te".data, "te".data, none, none),
    ("tg".data, "tg".data, none, none),
    ("th".data, "th".data, none, none),
    ("tir".data, "ti".data, none, none),
    ("tk".data, "tk".data, none, none),
    ("tl".data, "tl".data, none, none),
    ("tlh".data, "tlh".data, none, none),
    ("to".data, "to".data, none, none),
    ("tr".data, "tr".data, none, none),
    ("ts".data, "ts".data, none, none),
    ("tsn".data, "tn".data, none, none),
    ("tt".data, "tt".data, none, none),
    ("tw".data, "tw".data, none, none),
    ("ty".data, "ty".data, none, none),
    ("ug".data, "ug".data, none, none),
    ("uk".data, "uk".data, none, none),
    ("umb".data, "umb".data, none, none),
    ("ug".data, "ug".data, none, none),
    ("ur".data, "ur".data, none, none),
    ("uz".data, "uz".data, none, none),
    ("ve".data, "ve".data, none, none),
    ("vi".data, "vi".data, none, none),
    ("vo".data, "vo".data, none, none),
    ("wa".data, "wa".data, none, none),
    ("wol".data, "wo".data, none, none),
    ("xho".data, "xh".data, none, none),
    ("yi".data, "yi".data, none, none),
    ("yor".data, "yo".data, none, none),
    ("za".data, "za".data, none, none),
    ("zh".data, "yue".data, none, none),
    ("zh-cn".data, "zh".data, none, some "hans".data),
    ("zh-tw".data, "zh".data, none, some "hant".data),
    ("zh-sg".data, "zh".data, some "sg".data, some "hans".data),
    ("zh-hk".data, "zh".data, some "hk".data, some "hant".data),
    ("zul".data, "zu".data, none, none)]

/-- `BCP47Dict.add`: `self[(language, region, script)] = value`. -/
def bcp47DictAdd (d : List (K × S)) (row : S × S × Option S × Option S) : List (K × S) :=
  alistSet d (some row.2.1, row.2.2.1, row.2.2.2) row.1

/-- The dict contents shared by `BCP47_TO_UNILANGS_STRICT` and
`BCP47_TO_UNILANGS_LOSSY` (both are built by `add_all` from the same tuples;
they differ only in their `lookup` method). -/
def BCP47_TO_UNILANGS : List (K × S) := bcp47Data.foldl bcp47DictAdd []

/-- `StrictDict.lookup`: exact key or `KeyError`. -/
def strictLookup (d : List (K × S)) (language region script : Option S) : Except UErr S :=
  match alookup d (language, region, script) with
  | some v => .ok v
  | none => .error (.notFoundKey (language, region, script))

/-- Python `a or b` on `dict.get` results: `b` when `a` is `None` or falsy. -/
def pyOrO : Option S → Option S → Option S
  | some v, b => if v = [] then b else some v
  | none, b => b

/-- `BestFitDict.lookup`: the `or`-chain over the four relaxation probes,
then `if result: return result else raise KeyError`. -/
def bestFitLookup (d : List (K × S)) (language region script : Option S) : Except UErr S :=
  let result :=
    pyOrO (alookup d (language, region, script))
      (pyOrO (alookup d (language, none, script))
        (pyOrO (alookup d (language, region, none))
          (pyOrO (alookup d (language, none, none)) none)))
  match result with
  | some v => if v = [] then .error (.notFoundKey (language, region, script)) else .ok v
  | none => .error (.notFoundKey (language, region, script))

/-- Python `'-'.join(pieces)`. -/
def joinH : List S → S
  | [] => []
  | [p] => p
  | p :: ps => p ++ '-' :: joinH ps

/-- Python `filter(None, xs)` over optional strings: keep the truthy ones. -/
def pyFilterTruthy (xs : List (Option S)) : List S :=
  xs.filterMap fun o =>
    match o with
    | some v => if v = [] then none else some v
    | none => none

/-- `_make_unilangs_to_bcp47`: reverse the strict dict, rendering each key as
`'-'.join(filter(None, (language, script, region)))`. -/
def UNILANGS_TO_BCP47 : List (S × S) :=
  BCP47_TO_UNILANGS.foldl
    (fun result kv =>
      alistSet result kv.2 (joinH (pyFilterTruthy [kv.1.1, kv.1.2.2, kv.1.2.1]))) []

/-- `parts[part]['subtag'].lower() if parts[part] else None`. -/
def partProbe (p : Option SubtagEntry) : Option S := p.map fun e => lowerS e.subtag

/-- The shared front half of `BCP47ToUnilangConverter.__getitem__`: parse the
code and extract the `(language, region, script)` probes. -/
def convGetParts (reg : Registry) (k : S) : Except UErr K :=
  match parseCode reg k with
  | .error e => .error (.parseErr e)
  | .ok parts => .ok (partProbe parts.language, partProbe parts.region, partProbe parts.script)

/-- `StrictBCP47ToUnilangConverter()[k]`. -/
def strictConvGetItem (reg : Registry) (k : S) : Except UErr S :=
  (convGetParts reg k).bind fun t => strictLookup BCP47_TO_UNILANGS t.1 t.2.1 t.2.2

/-- `LossyBCP47ToUnilangConverter()[k]`. -/
def lossyConvGetItem (reg : Registry) (k : S) : Except UErr S :=
  (convGetParts reg k).bind fun t => bestFitLookup BCP47_TO_UNILANGS t.1 t.2.1 t.2.2

/-- `LanguageCode(k, 'bcp47').encode('bcp47')`: decode through the strict
converter, then re-encode through `UNILANGS_TO_BCP47`. -/
def bcp47RoundTrip (reg : Registry) (k : S) : Except UErr S :=
  (strictConvGetItem reg k).bind fun internalCode =>
    match alookup UNILANGS_TO_BCP47 internalCode with
    | some v => .ok v
    | none => .error (.keyError internalCode)

/-! ### Standard registry embedding (`unilangs/unilangs.py`) -/

/-- A value of the `TO_INTERNAL` table: either a plain code dict, or one of
the two BCP47 converter objects registered by `_add_bcp47`. -/
inductive StdTable where
  | plain (d : List (S × S))
  | convStrict (reg : Registry)
  | convLossy (reg : Registry)
deriving DecidableEq

/-- The module-level mutable state of `unilangs.py`: `TO_INTERNAL` and
`FROM_INTERNAL` (both keyed by standard name). -/
structure UniState where
  to_internal : List (S × StdTable)
  from_internal : List (S × List (S × S))
deriving DecidableEq

/-- `_reverse_dict(d)`: `dict([(v, k) for k, v in d.items()])` — later items
overwrite earlier ones on value collision. -/
def reverseDict (d : List (S × S)) : List (S × S) :=
  d.foldl (fun acc kv => alistSet acc kv.2 kv.1) []

/-- `m.update(mapping)`: assign every binding of `mapping` in order. -/
def dictUpdate (m : List (S × S)) (mapping : List (S × S)) : List (S × S) :=
  mapping.foldl (fun acc kv => alistSet acc kv.1 kv.2) m

/-- `for c in exclude: del m[c]` — `KeyError` when a key is absent. -/
def delAll (m : List (S × S)) : List S → Except UErr (List (S × S))
  | [] => .ok m
  | c :: rest =>
    if (alookup m c).isSome then delAll (alistDel m c) rest
    else .error (.keyError c)

/-- `add_standard(standard, mapping, base, exclude)`.  The `base` of every
call in the source is a plain dict; copying a converter object and calling
`dict.update` on it would fail in Python, so that dead branch is an error. -/
def addStandard (st : UniState) (standard : S) (mapping : List (S × S))
    (base : Option S) (exclude : Option (List S)) : Except UErr UniState :=
  let store := fun (m : List (S × S)) =>
    UniState.mk (alistSet st.to_internal standard (.plain m))
      (alistSet st.from_internal standard (reverseDict m))
  match base with
  | some b =>
    match alookup st.to_internal b with
    | some (.plain d) =>
      let m := dictUpdate d mapping
      match exclude with
      | some ex => (delAll m ex).map store
      | none => .ok (store m)
    | some _ => .error (.keyError b)
    | none => .error (.keyError b)
  | none => .ok (store mapping)

/-- `standard_dict[language_code]` for each kind of `TO_INTERNAL` value. -/
def stdTableGet (t : StdTable) (code : S) : Except UErr S :=
  match t with
  | .plain d =>
    match alookup d code with
    | some v => .ok v
    | none => .error (.keyError code)
  | .convStrict reg => strictConvGetItem reg code
  | .convLossy reg => lossyConvGetItem reg code

/-- `LanguageCode.__init__(language_code, standard)`: the resulting internal
`_code`, or the raised error. -/
def languageCodeNew (st : UniState) (language_code standard : S) : Except UErr S :=
  match alookup st.to_internal (lowerS standard) with
  | none => .error (.unknownStandard standard)
  | some t => stdTableGet t language_code

/-- `LanguageCode.encode(standard)` (non-fuzzy): look the stored internal
code up in `FROM_INTERNAL[standard.lower()]`. -/
def encodeFrom (st : UniState) (internalCode standard : S) : Except UErr S :=
  match alookup st.from_internal (lowerS standard) with
  | none => .error (.keyError (lowerS standard))
  | some d =>
    match alookup d internalCode with
    | some v => .ok v
    | none => .error (.keyError internalCode)

/-! ### A concrete registry for concrete inputs -/

/-- Modelled from the spec: the IANA subtag registry *data* (the
`unilangs.bcp47.data` JSON blob, an external collaborator per the spec) is
not part of the source; this sample holds just the registered subtags the
spec's concrete examples rely on: languages `en`, `ar`, `es`, `sgn`;
extlang `ase` (preferred value `ase`); scripts `latn`, `hant`; regions
`us`, `gb`; variant `scouse`; grandfathered tags `i-klingon` (preferred
`tlh`) and `i-navajo` (preferred `nv`).  Unregistered strings such as
`cheese` are absent. -/
def sampleRegistry : Registry :=
  { language := [("en".data, ⟨"en".data, none⟩), ("ar".data, ⟨"ar".data, none⟩),
                 ("es".data, ⟨"es".data, none⟩), ("sgn".data, ⟨"sgn".data, none⟩)],
    extlang := [("ase".data, ⟨"ase".data, some "ase".data⟩)],
    script := [("latn".data, ⟨"latn".data, none⟩), ("hant".data, ⟨"hant".data, none⟩)],
    region := [("us".data, ⟨"us".data, none⟩), ("gb".data, ⟨"gb".data, none⟩)],
    variant := [("scouse".data, ⟨"scouse".data, none⟩)],
    grandfathered := [("i-klingon".data, ⟨"i-klingon".data, some "tlh".data⟩),
                      ("i-navajo".data, ⟨"i-navajo".data, some "nv".data⟩)] }


/-! ### Characterizing the dict folds without evaluating them

The converter dicts are built by left folds of `alistSet`; these lemmas
reduce membership and lookup in such a fold to scans of the raw row list,
so concrete facts about the tables follow by linear checks. -/

theorem mem_alistSet {α β : Type} [DecidableEq α] (d : List (α × β)) (k : α) (v : β)
    (p : α × β) (h : p ∈ alistSet d k v) : p ∈ d ∨ p = (k, v) := by
  induction d with
  | nil =>
    simp [alistSet] at h
    exact Or.inr h
  | cons hd tl ih =>
    obtain ⟨k', v'⟩ := hd
    by_cases hk : k' = k
    · subst hk
      simp only [alistSet, if_pos rfl] at h
      rcases List.mem_cons.mp h with h' | h'
      · exact Or.inr (by rw [h'])
      · exact Or.inl (List.mem_cons_of_mem _ h')
    · simp only [alistSet, if_neg hk] at h
      rcases List.mem_cons.mp h with h' | h'
      · exact Or.inl (by rw [h']; exact List.mem_cons_self _ _)
      · rcases ih h' with h'' | h''
        · exact Or.inl (List.mem_cons_of_mem _ h'')
        · exact Or.inr h''

theorem mem_foldl_set {γ α β : Type} [DecidableEq α]
    (f : List (α × β) → γ → List (α × β)) (key : γ → α) (val : γ → β)
    (hf : ∀ d g, f d g = alistSet d (key g) (val g))
    (rows : List γ) (acc : List (α × β)) (p : α × β)
    (h : p ∈ rows.foldl f acc) :
    p ∈ acc ∨ ∃ g ∈ rows, p = (key g, val g) := by
  induction rows generalizing acc with
  | nil => exact Or.inl h
  | cons g gs ih =>
    rw [List.foldl_cons] at h
    rcases ih (f acc g) h with h' | ⟨g', hg', hp⟩
    · rw [hf] at h'
      rcases mem_alistSet _ _ _ _ h' with h'' | h''
      · exact Or.inl h''
      · exact Or.inr ⟨g, List.mem_cons_self _ _, h''⟩
    · exact Or.inr ⟨g', List.mem_cons_of_mem _ hg', hp⟩

theorem alookup_foldl_set {γ α β : Type} [DecidableEq α]
    (f : List (α × β) → γ → List (α × β)) (key : γ → α) (val : γ → β)
    (hf : ∀ d g, f d g = alistSet d (key g) (val g))
    (rows : List γ) (acc : List (α × β)) (k : α) :
    alookup (rows.foldl f acc) k =
      ((rows.reverse.find? (fun g => key g = k)).map val).or (alookup acc k) := by
  induction rows generalizing acc with
  | nil => simp
  | cons g gs ih =>
    rw [List.foldl_cons, ih, List.reverse_cons, List.find?_append]
    by_cases hkey : key g = k
    · cases hfind : List.find? (fun g => decide (key g = k)) gs.reverse with
      | some p => simp [Option.or, hf, alookup_alistSet, hfind]
      | none => simp [Option.or, hf, alookup_alistSet, hfind, hkey]
    · cases hfind : List.find? (fun g => decide (key g = k)) gs.reverse with
      | some p => simp [Option.or, hf, alookup_alistSet, hfind, hkey]
      | none =>
        by_cases hkk : k = key g
        · exact absurd hkk.symm hkey
        · simp [Option.or, hf, alookup_alistSet, hfind, hkey, hkk]

/-- The `(language, region, script)` dict key of a data row. -/
def bcp47Key (row : S × S × Option S × Option S) : K :=
  (some row.2.1, row.2.2.1, row.2.2.2)

theorem mem_bcp47Table (p : K × S) (h : p ∈ BCP47_TO_UNILANGS) :
    ∃ row ∈ bcp47Data, p = (bcp47Key row, row.1) := by
  have := mem_foldl_set bcp47DictAdd bcp47Key (fun row => row.1)
    (fun d g => rfl) bcp47Data [] p h
  simpa using this

theorem alookup_bcp47Table (k : K) :
    alookup BCP47_TO_UNILANGS k =
      (bcp47Data.reverse.find? (fun row => bcp47Key row = k)).map (fun row => row.1) := by
  have h := alookup_foldl_set bcp47DictAdd bcp47Key (fun row => row.1)
    (fun d g => rfl) bcp47Data [] k
  unfold BCP47_TO_UNILANGS
  rw [h]
  have h0 : alookup ([] : List (K × S)) k = none := rfl
  rw [h0, Option.or_none]

theorem alookup_u2b (u : S) :
    alookup UNILANGS_TO_BCP47 u =
      (BCP47_TO_UNILANGS.reverse.find? (fun kv => kv.2 = u)).map
        (fun kv => joinH (pyFilterTruthy [kv.1.1, kv.1.2.2, kv.1.2.1])) := by
  have h := alookup_foldl_set
    (fun result kv =>
      alistSet result kv.2 (joinH (pyFilterTruthy [kv.1.1, kv.1.2.2, kv.1.2.1])))
    (fun kv => kv.2) (fun kv => joinH (pyFilterTruthy [kv.1.1, kv.1.2.2, kv.1.2.1]))
    (fun d g => rfl) BCP47_TO_UNILANGS [] u
  unfold UNILANGS_TO_BCP47
  rw [h]
  have h0 : alookup ([] : List (S × S)) u = none := rfl
  rw [h0, Option.or_none]

/-- Strict character-wise lexicographic order on strings, used only to state
that the data's unilangs-code column is (mostly) listed in order. -/
def sLt : S → S → Bool
  | [], [] => false
  | [], _ :: _ => true
  | _ :: _, [] => false
  | c :: cs, d :: ds => if c < d then true else if c = d then sLt cs ds else false

theorem sLt_irrefl : ∀ (a : S), sLt a a = false
  | [] => rfl
  | c :: cs => by
    unfold sLt
    rw [if_neg (lt_irrefl c), if_pos rfl]
    exact sLt_irrefl cs

theorem sLt_trans : ∀ {a b c : S}, sLt a b = true → sLt b c = true → sLt a c = true
  | [], [], _, h1, _ => absurd h1 (by simp [sLt])
  | [], _ :: _, [], _, h2 => absurd h2 (by simp [sLt])
  | [], _ :: _, _ :: _, _, _ => rfl
  | _ :: _, [], _, h1, _ => absurd h1 (by simp [sLt])
  | _ :: _, _ :: _, [], _, h2 => absurd h2 (by simp [sLt])
  | a :: as, b :: bs, c :: cs, h1, h2 => by
    unfold sLt at h1 h2 ⊢
    by_cases hab : a < b
    · rw [if_pos hab] at h1
      by_cases hbc : b < c
      · rw [if_pos (lt_trans hab hbc)]
      · rw [if_neg hbc] at h2
        by_cases hbc2 : b = c
        · rw [← hbc2, if_pos hab]
        · rw [if_neg hbc2] at h2
          exact absurd h2 (by simp)
    · rw [if_neg hab] at h1
      by_cases hab2 : a = b
      · rw [if_pos hab2] at h1
        subst hab2
        by_cases hac : a < c
        · rw [if_pos hac]
        · rw [if_neg hac] at h2 ⊢
          by_cases hac2 : a = c
          · rw [if_pos hac2] at h2 ⊢
            exact sLt_trans h1 h2
          · rw [if_neg hac2] at h2
            exact absurd h2 (by simp)
      · rw [if_neg hab2] at h1
        exact absurd h1 (by simp)

theorem ne_of_sLt {a b : S} (h : sLt a b = true) : a ≠ b := fun he => by
  rw [he, sLt_irrefl] at h
  exact Bool.noConfusion h

/-- The seven unilangs codes listed out of alphabetical order in `bcp47Data`
(`ug` is also the one code carried by two rows). -/
def outOfOrderValues : List S :=
  ["mni".data, "na".data, "pan".data, "te".data, "ug".data,
   "zh-sg".data, "zh-hk".data]

/-- Executable check that a row list's unilangs codes strictly increase. -/
def chainLt : List (S × S × Option S × Option S) → Bool
  | [] => true
  | [_] => true
  | r1 :: r2 :: rest => sLt r1.1 r2.1 && chainLt (r2 :: rest)

theorem chain'_of_chainLt : ∀ (l : List (S × S × Option S × Option S)),
    chainLt l = true → List.Chain' (fun r1 r2 => sLt r1.1 r2.1 = true) l
  | [], _ => List.chain'_nil
  | [r], _ => List.chain'_singleton r
  | r1 :: r2 :: rest, h => by
    unfold chainLt at h
    rw [Bool.and_eq_true] at h
    exact List.chain'_cons.mpr ⟨h.1, chain'_of_chainLt (r2 :: rest) h.2⟩

/-- Dropping the out-of-order rows, the unilangs-code column of the data is
strictly increasing. -/
theorem bcp47Data_inorder_chain :
    List.Chain' (fun r1 r2 => sLt r1.1 r2.1 = true)
      (bcp47Data.filter (fun r => !(outOfOrderValues.contains r.1))) := by
  apply chain'_of_chainLt
  decide

/-- Every out-of-order row agrees in key with every row sharing its
unilangs code, checked exhaustively for those rows. -/
theorem bcp47Data_exceptional_checked :
    ∀ r1 ∈ bcp47Data.filter (fun r => outOfOrderValues.contains r.1),
      ∀ r2 ∈ bcp47Data, r1.1 = r2.1 → bcp47Key r1 = bcp47Key r2 := by
  decide

/-- Among the in-order rows, the unilangs code determines the whole row. -/
theorem bcp47Data_inorder_distinct :
    ∀ r1 ∈ bcp47Data.filter (fun r => !(outOfOrderValues.contains r.1)),
      ∀ r2 ∈ bcp47Data.filter (fun r => !(outOfOrderValues.contains r.1)),
        r1.1 = r2.1 → r1 = r2 := by
  haveI : IsTrans (S × S × Option S × Option S)
      (fun r1 r2 => sLt r1.1 r2.1 = true) :=
    ⟨fun _ _ _ h1 h2 => sLt_trans h1 h2⟩
  have hp := (List.chain'_iff_pairwise).mp bcp47Data_inorder_chain
  have hne : (bcp47Data.filter (fun r => !(outOfOrderValues.contains r.1))).Pairwise
      (fun r1 r2 => r1.1 ≠ r2.1) :=
    hp.imp (fun h => ne_of_sLt h)
  have hsym : Symmetric (fun (r1 r2 : S × S × Option S × Option S) => r1.1 ≠ r2.1) :=
    fun _ _ h he => h he.symm
  intro r1 h1 r2 h2 heq
  by_contra hr
  exact hne.forall hsym h1 h2 hr heq

/-- In the raw data, rows carrying the same unilangs code carry the same
`(language, region, script)` key (the only duplicated code, `ug`, is listed
twice with identical rows). -/
theorem bcp47Data_value_determines_key :
    ∀ r1 ∈ bcp47Data, ∀ r2 ∈ bcp47Data, r1.1 = r2.1 → bcp47Key r1 = bcp47Key r2 := by
  intro r1 h1 r2 h2 heq
  by_cases e1 : outOfOrderValues.contains r1.1 = true
  · exact bcp47Data_exceptional_checked r1 (List.mem_filter.mpr ⟨h1, e1⟩) r2 h2 heq
  · by_cases e2 : outOfOrderValues.contains r2.1 = true
    · exact (bcp47Data_exceptional_checked r2 (List.mem_filter.mpr ⟨h2, e2⟩)
        r1 h1 heq.symm).symm
    · have m1 : r1 ∈ bcp47Data.filter (fun r => !(outOfOrderValues.contains r.1)) :=
        List.mem_filter.mpr ⟨h1, by simpa using e1⟩
      have m2 : r2 ∈ bcp47Data.filter (fun r => !(outOfOrderValues.contains r.1)) :=
        List.mem_filter.mpr ⟨h2, by simpa using e2⟩
      rw [bcp47Data_inorder_distinct r1 m1 r2 m2 heq]

/-- Every unilangs code in the raw data is a nonempty string. -/
theorem bcp47Data_values_nonempty : ∀ row ∈ bcp47Data, row.1 ≠ [] := by
  decide

/-- `StrictDict.lookup` on a missing key raises `KeyError`. -/
theorem strictLookup_none {d : List (K × S)} {l r s : Option S}
    (h : alookup d (l, r, s) = none) :
    strictLookup d l r s = .error (.notFoundKey (l, r, s)) := by
  unfold strictLookup
  rw [h]

/-- `StrictDict.lookup` on a present key returns its value. -/
theorem strictLookup_some {d : List (K × S)} {l r s : Option S} {v : S}
    (h : alookup d (l, r, s) = some v) :
    strictLookup d l r s = .ok v := by
  unfold strictLookup
  rw [h]

/-- `BestFitDict.lookup` raises `KeyError` when all four probes miss. -/
theorem bestFitLookup_allNone {d : List (K × S)} {l r s : Option S}
    (h1 : alookup d (l, r, s) = none) (h2 : alookup d (l, none, s) = none)
    (h3 : alookup d (l, r, none) = none) (h4 : alookup d (l, none, none) = none) :
    bestFitLookup d l r s = .error (.notFoundKey (l, r, s)) := by
  unfold bestFitLookup
  rw [h1, h2, h3, h4]
  rfl

/-- `BestFitDict.lookup` returns the second probe's value when the first
probe misses and the second hits a truthy value. -/
theorem bestFitLookup_second {d : List (K × S)} {l r s : Option S} {v : S}
    (h1 : alookup d (l, r, s) = none) (h2 : alookup d (l, none, s) = some v)
    (hv : v ≠ []) :
    bestFitLookup d l r s = .ok v := by
  unfold bestFitLookup
  rw [h1, h2]
  simp [pyOrO, hv]

/-- Strict `__getitem__` after a successful parse is the strict dict lookup
of the extracted probes. -/
theorem strictConvGetItem_of_parts {reg : Registry} {k : S} {l r s : Option S}
    (h : convGetParts reg k = .ok (l, r, s)) :
    strictConvGetItem reg k = strictLookup BCP47_TO_UNILANGS l r s := by
  unfold strictConvGetItem
  rw [h]
  rfl

/-- Lossy `__getitem__` after a successful parse is the best-fit dict lookup
of the extracted probes. -/
theorem lossyConvGetItem_of_parts {reg : Registry} {k : S} {l r s : Option S}
    (h : convGetParts reg k = .ok (l, r, s)) :
    lossyConvGetItem reg k = bestFitLookup BCP47_TO_UNILANGS l r s := by
  unfold lossyConvGetItem
  rw [h]
  rfl

/-- The round trip after a successful strict decode is the reverse-dict
entry of the decoded code. -/
theorem bcp47RoundTrip_of_decode {reg : Registry} {k : S} {v w : S}
    (h1 : strictConvGetItem reg k = .ok v)
    (h2 : alookup UNILANGS_TO_BCP47 v = some w) :
    bcp47RoundTrip reg k = .ok w := by
  unfold bcp47RoundTrip
  rw [h1]
  simp only [Except.bind]
  rw [h2]

/-! ### Spec-side reference definitions

These follow the specification's words, to be compared with the embedded
source functions. -/

/-- Spec-side BestFit policy (§4.4): try `(language,region,script)`,
`(language,null,script)`, `(language,region,null)`, `(language,null,null)`
in that priority, return the value of the first key present, fail with
`NotFoundError` when none of the four keys is present. -/
def bestFitSpecLookup (d : List (K × S)) (language region script : Option S) :
    Except UErr S :=
  match alookup d (language, region, script) with
  | some v => .ok v
  | none =>
    match alookup d (language, none, script) with
    | some v => .ok v
    | none =>
      match alookup d (language, region, none) with
      | some v => .ok v
      | none =>
        match alookup d (language, none, none) with
        | some v => .ok v
        | none => .error (.notFoundKey (language, region, script))

/-- Every value stored in a dict is a nonempty (truthy) string. -/
def valuesTruthy (d : List (K × S)) : Prop := ∀ kv ∈ d, kv.2 ≠ []

/-- For a dict whose stored values are all truthy, the `or`-chained
`BestFitDict.lookup` of the source coincides with the spec's
first-present-key policy. -/
theorem bestFit_eq_spec_of_truthy {d : List (K × S)} (h : valuesTruthy d)
    (l r s : Option S) : bestFitLookup d l r s = bestFitSpecLookup d l r s := by
  have hv : ∀ k v, alookup d k = some v → v ≠ [] := fun k v hk =>
    h (k, v) (alookup_mem hk)
  unfold bestFitLookup bestFitSpecLookup
  cases h1 : alookup d (l, r, s) with
  | some v1 => simp [pyOrO, h1, hv _ _ h1]
  | none =>
    cases h2 : alookup d (l, none, s) with
    | some v2 => simp [pyOrO, h1, h2, hv _ _ h2]
    | none =>
      cases h3 : alookup d (l, r, none) with
      | some v3 => simp [pyOrO, h1, h2, h3, hv _ _ h3]
      | none =>
        cases h4 : alookup d (l, none, none) with
        | some v4 => simp [pyOrO, h1, h2, h3, h4, hv _ _ h4]
        | none => simp [pyOrO, h1, h2, h3, h4]

/-- A successful `BestFitDict.lookup` always comes from one of the four
probe keys, each of which carries the requested language. -/
theorem bestFit_ok_cases {d : List (K × S)} {l r s : Option S} {v : S}
    (h : bestFitLookup d l r s = .ok v) :
    alookup d (l, r, s) = some v ∨ alookup d (l, none, s) = some v ∨
    alookup d (l, r, none) = some v ∨ alookup d (l, none, none) = some v := by
  unfold bestFitLookup at h
  cases h1 : alookup d (l, r, s) with
  | some v1 =>
    rw [h1] at h
    by_cases hv1 : v1 = []
    · subst hv1
      simp [pyOrO] at h
      cases h2 : alookup d (l, none, s) with
      | some v2 =>
        rw [h2] at h
        by_cases hv2 : v2 = []
        · subst hv2
          simp [pyOrO] at h
          cases h3 : alookup d (l, r, none) with
          | some v3 =>
            rw [h3] at h
            by_cases hv3 : v3 = []
            · subst hv3
              simp [pyOrO] at h
              cases h4 : alookup d (l, none, none) with
              | some v4 =>
                rw [h4] at h
                by_cases hv4 : v4 = []
                · simp [pyOrO, hv4] at h
                · simp [pyOrO, hv4] at h
                  right; right; right
                  rw [h]
              | none => rw [h4] at h; simp [pyOrO] at h
            · simp [pyOrO, hv3] at h
              right; right; left
              rw [h]
          | none =>
            rw [h3] at h
            simp [pyOrO] at h
            cases h4 : alookup d (l, none, none) with
            | some v4 =>
              rw [h4] at h
              by_cases hv4 : v4 = []
              · simp [pyOrO, hv4] at h
              · simp [pyOrO, hv4] at h
                right; right; right
                rw [h]
            | none => simp [pyOrO, h4] at h
        · simp [pyOrO, hv2] at h
          right; left
          rw [h]
      | none =>
        rw [h2] at h
        simp [pyOrO] at h
        cases h3 : alookup d (l, r, none) with
        | some v3 =>
          rw [h3] at h
          by_cases hv3 : v3 = []
          · subst hv3
            simp [pyOrO] at h
            cases h4 : alookup d (l, none, none) with
            | some v4 =>
              rw [h4] at h
              by_cases hv4 : v4 = []
              · simp [pyOrO, hv4] at h
              · simp [pyOrO, hv4] at h
                right; right; right
                rw [h]
            | none => rw [h4] at h; simp [pyOrO] at h
          · simp [pyOrO, hv3] at h
            right; right; left
            rw [h]
        | none =>
          rw [h3] at h
          simp [pyOrO] at h
          cases h4 : alookup d (l, none, none) with
          | some v4 =>
            rw [h4] at h
            by_cases hv4 : v4 = []
            · simp [pyOrO, hv4] at h
            · simp [pyOrO, hv4] at h
              right; right; right
              rw [h]
          | none => simp [pyOrO, h4] at h
    · simp [pyOrO, hv1] at h
      left
      rw [h]
  | none =>
    rw [h1] at h
    simp [pyOrO] at h
    cases h2 : alookup d (l, none, s) with
    | some v2 =>
      rw [h2] at h
      by_cases hv2 : v2 = []
      · subst hv2
        simp [pyOrO] at h
        cases h3 : alookup d (l, r, none) with
        | some v3 =>
          rw [h3] at h
          by_cases hv3 : v3 = []
          · subst hv3
            simp [pyOrO] at h
            cases h4 : alookup d (l, none, none) with
            | some v4 =>
              rw [h4] at h
              by_cases hv4 : v4 = []
              · simp [pyOrO, hv4] at h
              · simp [pyOrO, hv4] at h
                right; right; right
                rw [h]
            | none => rw [h4] at h; simp [pyOrO] at h
          · simp [pyOrO, hv3] at h
            right; right; left
            rw [h]
        | none =>
          rw [h3] at h
          simp [pyOrO] at h
          cases h4 : alookup d (l, none, none) with
          | some v4 =>
            rw [h4] at h
            by_cases hv4 : v4 = []
            · simp [pyOrO, hv4] at h
            · simp [pyOrO, hv4] at h
              right; right; right
              rw [h]
          | none => simp [pyOrO, h4] at h
      · simp [pyOrO, hv2] at h
        right; left
        rw [h]
    | none =>
      rw [h2] at h
      simp [pyOrO] at h
      cases h3 : alookup d (l, r, none) with
      | some v3 =>
        rw [h3] at h
        by_cases hv3 : v3 = []
        · subst hv3
          simp [pyOrO] at h
          cases h4 : alookup d (l, none, none) with
          | some v4 =>
            rw [h4] at h
            by_cases hv4 : v4 = []
            · simp [pyOrO, hv4] at h
            · simp [pyOrO, hv4] at h
              right; right; right
              rw [h]
          | none => rw [h4] at h; simp [pyOrO] at h
        · simp [pyOrO, hv3] at h
          right; right; left
          rw [h]
      | none =>
        rw [h3] at h
        simp [pyOrO] at h
        cases h4 : alookup d (l, none, none) with
        | some v4 =>
          rw [h4] at h
          by_cases hv4 : v4 = []
          · simp [pyOrO, hv4] at h
          · simp [pyOrO, hv4] at h
            right; right; right
            rw [h]
        | none => simp [pyOrO, h4] at h

/-! ### Claim theorems -/

/-- C1: For every language, and region and script possibly null,
`BestFit.lookup` on the converter's table tries the keys
`(language,region,script)`, `(language,null,script)`, `(language,region,null)`,
`(language,null,null)` in exactly that priority order, returns the value of
the first key present, and fails with `NotFoundError` when none of the four
keys is present — the language component is identical in all four probes
(stated as equality with the spec-side first-present-key policy
`bestFitSpecLookup`, whose four probes are exactly those keys). -/
theorem C1_bestfit_priority_order (language : S) (region script : Option S) :
    bestFitLookup BCP47_TO_UNILANGS (some language) region script =
      bestFitSpecLookup BCP47_TO_UNILANGS (some language) region script := by
  apply bestFit_eq_spec_of_truthy
  unfold valuesTruthy
  intro kv hkv
  obtain ⟨row, hrow, hp⟩ := mem_bcp47Table kv hkv
  rw [hp]
  exact bcp47Data_values_nonempty row hrow

/-- C2 (code bug): parsing `sgn-ase` yields an extlang entry whose
`preferred_value` is `ase`, but both converters ignore the extlang part and
probe only the primary language `sgn`, which is not in the table — so the
conversion raises `NotFoundError` instead of producing the canonical code
`ase` that the spec and the source's own test
(`test_bcp47.py::test_extlangs`) require. -/
theorem C2_extlang_preferred_value_ignored :
    parseCode sampleRegistry "sgn-ase".data =
      .ok { language := some ⟨"sgn".data, none⟩,
            extlang := some ⟨"ase".data, some "ase".data⟩,
            script := none, region := none, variants := [],
            grandfathered := none, extensions := [] } ∧
    strictConvGetItem sampleRegistry "sgn-ase".data =
      .error (.notFoundKey (some "sgn".data, none, none)) ∧
    lossyConvGetItem sampleRegistry "sgn-ase".data =
      .error (.notFoundKey (some "sgn".data, none, none)) := by
  have hparts : convGetParts sampleRegistry "sgn-ase".data =
      .ok (some "sgn".data, none, none) := by decide
  have hkey : alookup BCP47_TO_UNILANGS (some "sgn".data, none, none) = none := by
    rw [alookup_bcp47Table]
    decide
  refine ⟨by decide, ?_, ?_⟩
  · rw [strictConvGetItem_of_parts hparts]
    exact strictLookup_none hkey
  · rw [lossyConvGetItem_of_parts hparts]
    exact bestFitLookup_allNone hkey hkey hkey hkey

/-- C5: an input whose lowercasing exactly matches a registered
grandfathered tag parses to a `ParsedTag` with only the `grandfathered`
field populated: language, extlang, script and region absent, no variants,
no extensions — no further decomposition. -/
theorem C5_grandfathered_short_circuit (reg : Registry) (s : S) (e : SubtagEntry)
    (h : alookup reg.grandfathered (lowerS s) = some e) :
    parseCode reg s = .ok { language := none, extlang := none, script := none,
                            region := none, variants := [], grandfathered := some e,
                            extensions := [] } := by
  simp [parseCode, h, emptyTag]

/-- Witness for C5 at the concrete input `i-klingon`. -/
theorem C5_grandfathered_short_circuit_witness :
    alookup sampleRegistry.grandfathered (lowerS ("i-klingon".data)) =
        some ⟨"i-klingon".data, some "tlh".data⟩ ∧
    parseCode sampleRegistry "i-klingon".data =
      .ok { language := none, extlang := none, script := none, region := none,
            variants := [], grandfathered := some ⟨"i-klingon".data, some "tlh".data⟩,
            extensions := [] } :=
  ⟨by decide, C5_grandfathered_short_circuit sampleRegistry ("i-klingon".data)
    ⟨"i-klingon".data, some "tlh".data⟩ (by decide)⟩

/-- C7: the structurally invalid inputs `en--us`, `en-us-`, `x-a-foo` and
`ar-a-aaa-b-bbb-a-ccc` each make `parse` fail with the corresponding
malformed-tag error (and each of those errors is classified as a
`MalformedTagError`, not an `InvalidLanguageError`). -/
theorem C7_malformed_inputs_rejected :
    parseCode sampleRegistry "en--us".data = .error .malformedHyphen ∧
    parseCode sampleRegistry "en-us-".data = .error .malformedHyphen ∧
    parseCode sampleRegistry "x-a-foo".data = .error (.singletonWithoutData "x".data) ∧
    parseCode sampleRegistry "ar-a-aaa-b-bbb-a-ccc".data =
      .error (.duplicateSingleton "a".data) ∧
    ParseError.malformedHyphen.isMalformedTagError = true ∧
    (ParseError.singletonWithoutData "x".data).isMalformedTagError = true ∧
    (ParseError.duplicateSingleton "a".data).isMalformedTagError = true := by
  decide

/-- C8: the converter table has an entry for `(sr, null, latn)` and none for
`(sr, sr, latn)`; `Strict.lookup("sr","sr","latn")` fails with
`NotFoundError` while `BestFit.lookup("sr","sr","latn")` returns the value
stored under `(sr, null, latn)`; and in general a successful best-fit lookup
only ever returns a value registered under the requested language. -/
theorem C8_bestfit_language_never_relaxed :
    alookup BCP47_TO_UNILANGS (some "sr".data, none, some "latn".data) =
      some "sr-latn".data ∧
    alookup BCP47_TO_UNILANGS (some "sr".data, some "sr".data, some "latn".data) = none ∧
    strictLookup BCP47_TO_UNILANGS (some "sr".data) (some "sr".data) (some "latn".data) =
      .error (.notFoundKey (some "sr".data, some "sr".data, some "latn".data)) ∧
    bestFitLookup BCP47_TO_UNILANGS (some "sr".data) (some "sr".data) (some "latn".data) =
      .ok "sr-latn".data ∧
    (∀ (d : List (K × S)) (l r s : Option S) (v : S),
      bestFitLookup d l r s = .ok v → ∃ r' s', alookup d (l, r', s') = some v) := by
  have h1 : alookup BCP47_TO_UNILANGS (some "sr".data, none, some "latn".data) =
      some "sr-latn".data := by
    rw [alookup_bcp47Table]
    decide
  have h2 : alookup BCP47_TO_UNILANGS
      (some "sr".data, some "sr".data, some "latn".data) = none := by
    rw [alookup_bcp47Table]
    decide
  refine ⟨h1, h2, strictLookup_none h2, bestFitLookup_second h2 h1 (by decide), ?_⟩
  · intro d l r s v h
    rcases bestFit_ok_cases h with h' | h' | h' | h'
    · exact ⟨r, s, h'⟩
    · exact ⟨none, s, h'⟩
    · exact ⟨r, none, h'⟩
    · exact ⟨none, none, h'⟩

/-- Witness for C8: the general never-relax-language conjunct applied at the
concrete best-fit lookup of the `sr`/`sr`/`latn` probe. -/
theorem C8_bestfit_language_never_relaxed_witness :
    ∃ r' s', alookup BCP47_TO_UNILANGS (some "sr".data, r', s') = some "sr-latn".data :=
  C8_bestfit_language_never_relaxed.2.2.2.2 BCP47_TO_UNILANGS
    (some "sr".data) (some "sr".data) (some "latn".data) ("sr-latn".data)
    C8_bestfit_language_never_relaxed.2.2.2.1

/-! ### Reverse-map construction (`_reverse_dict`) -/

/-- Spec-side "last-inserted wins": the standard code of the last entry of
`m` (in insertion order) whose value is the given canonical code. -/
def lastKeyFor (m : List (S × S)) (v : S) : Option S :=
  (m.reverse.find? (fun kv => kv.2 = v)).map Prod.fst

theorem reverseDict_foldl (m : List (S × S)) (acc : List (S × S)) (v : S) :
    alookup (m.foldl (fun a kv => alistSet a kv.2 kv.1) acc) v =
      ((lastKeyFor m v).or (alookup acc v)) := by
  induction m generalizing acc with
  | nil => simp [lastKeyFor]
  | cons hd tl ih =>
    obtain ⟨k₀, v₀⟩ := hd
    rw [List.foldl_cons, ih]
    unfold lastKeyFor
    rw [List.reverse_cons, List.find?_append]
    by_cases hv : v₀ = v
    · subst hv
      cases hfind : List.find? (fun kv => decide (kv.2 = v₀)) tl.reverse with
      | some p => simp [Option.or, alookup_alistSet, hfind]
      | none => simp [Option.or, alookup_alistSet, hfind]
    · cases hfind : List.find? (fun kv => decide (kv.2 = v)) tl.reverse with
      | some p => simp [Option.or, alookup_alistSet, hfind, hv, eq_comm]
      | none =>
        by_cases hvv : v = v₀
        · exact absurd hvv.symm hv
        · simp [Option.or, alookup_alistSet, hfind, hvv, hv]

/-- The reverse dict built by `_reverse_dict` answers every lookup with the
key of the last-inserted entry carrying that value. -/
theorem alookup_reverseDict (m : List (S × S)) (v : S) :
    alookup (reverseDict m) v = lastKeyFor m v := by
  unfold reverseDict
  rw [reverseDict_foldl]
  simp [alookup]

/-- C4: for every standard registered via `add_standard`, the stored
`from_internal` map is the reversal of the final `to_internal` map taken in
insertion order: every canonical code that is the value of at least one
`to_internal` entry maps back to the standard code of the last-inserted such
entry (and such a reverse entry exists). -/
theorem C4_from_internal_reverses_to_internal
    (st : UniState) (standard : S) (mapping : List (S × S))
    (base : Option S) (exclude : Option (List S)) (st' : UniState)
    (m : List (S × S)) (v : S)
    (hadd : addStandard st standard mapping base exclude = .ok st')
    (hm : alookup st'.to_internal standard = some (.plain m))
    (hval : ∃ k, (k, v) ∈ m) :
    alookup st'.from_internal standard = some (reverseDict m) ∧
    alookup (reverseDict m) v = lastKeyFor m v ∧ (lastKeyFor m v).isSome := by
  have hstore : ∃ mm, st' = UniState.mk (alistSet st.to_internal standard (.plain mm))
      (alistSet st.from_internal standard (reverseDict mm)) := by
    unfold addStandard at hadd
    cases base with
    | none =>
      simp at hadd
      exact ⟨mapping, hadd.symm⟩
    | some b =>
      cases hb : alookup st.to_internal b with
      | none => simp [hb] at hadd
      | some t =>
        cases t with
        | plain d =>
          cases exclude with
          | none =>
            simp [hb] at hadd
            exact ⟨dictUpdate d mapping, hadd.symm⟩
          | some ex =>
            simp [hb] at hadd
            cases hdel : delAll (dictUpdate d mapping) ex with
            | ok md =>
              rw [hdel] at hadd
              simp [Except.map] at hadd
              exact ⟨md, hadd.symm⟩
            | error e =>
              rw [hdel] at hadd
              simp [Except.map] at hadd
        | convStrict reg => simp [hb] at hadd
        | convLossy reg => simp [hb] at hadd
  obtain ⟨mm, hst'⟩ := hstore
  subst hst'
  rw [alookup_alistSet] at hm
  simp at hm
  subst hm
  refine ⟨?_, alookup_reverseDict mm v, ?_⟩
  · rw [alookup_alistSet]
    simp
  · obtain ⟨k, hk⟩ := hval
    unfold lastKeyFor
    have hsome : (List.find? (fun kv => decide (kv.2 = v)) mm.reverse).isSome := by
      rw [List.find?_isSome]
      refine ⟨(k, v), ?_, by simp⟩
      simpa using hk
    cases hp : List.find? (fun kv => decide (kv.2 = v)) mm.reverse with
    | none => rw [hp] at hsome; simp at hsome
    | some p => simp

/-- Witness for C4 at a concrete registration exercising the last-wins rule:
two standard codes (`american`, then `british`) map to the canonical `en`,
and the reverse entry is the last-inserted `british`. -/
theorem C4_from_internal_reverses_to_internal_witness :
    (alookup (reverseDict [("american".data, "en".data), ("british".data, "en".data)])
        ("en".data) =
      lastKeyFor [("american".data, "en".data), ("british".data, "en".data)] ("en".data)) ∧
    (lastKeyFor [("american".data, "en".data), ("british".data, "en".data)]
        ("en".data)).isSome ∧
    lastKeyFor [("american".data, "en".data), ("british".data, "en".data)] ("en".data) =
      some "british".data := by
  have h := C4_from_internal_reverses_to_internal ⟨[], []⟩ ("mystd".data)
    [("american".data, "en".data), ("british".data, "en".data)] none none
    ⟨[(("mystd".data : S),
        StdTable.plain [("american".data, "en".data), ("british".data, "en".data)])],
     [(("mystd".data : S),
        reverseDict [("american".data, "en".data), ("british".data, "en".data)])]⟩
    [("american".data, "en".data), ("british".data, "en".data)] ("en".data)
    (by decide) (by decide) ⟨"american".data, by decide⟩
  exact ⟨h.2.1, h.2.2, by decide⟩

/-! ### Case handling of standard names (`LanguageCode`) -/

/-- Python `standard.upper()` (charwise, the names are ASCII). -/
def upperS (s : S) : S := s.map Char.toUpper

theorem charToNat_ofNat_of_valid {n : Nat} (h : n.isValidChar) :
    (Char.ofNat n).toNat = n := by
  rw [Char.ofNat, dif_pos h]
  rfl

theorem char_toLower_toUpper (c : Char) : c.toUpper.toLower = c.toLower := by
  unfold Char.toUpper Char.toLower
  by_cases hu : 97 ≤ c.toNat ∧ c.toNat ≤ 122
  · have hvalid : (c.toNat - 32).isValidChar := by
      constructor
      omega
    rw [if_pos hu]
    rw [charToNat_ofNat_of_valid hvalid]
    have h1 : 65 ≤ c.toNat - 32 ∧ c.toNat - 32 ≤ 90 := by omega
    have h2 : ¬ (65 ≤ c.toNat ∧ c.toNat ≤ 90) := by omega
    rw [if_pos h1, if_neg h2]
    have h3 : c.toNat - 32 + 32 = c.toNat := by omega
    rw [h3, Char.ofNat_toNat]
  · rw [if_neg hu]

theorem lowerS_upperS (s : S) : lowerS (upperS s) = lowerS s := by
  unfold lowerS upperS
  rw [List.map_map]
  exact List.map_congr_left fun c _ => char_toLower_toUpper c

/-- A two-standard state demonstrating code-case sensitivity: the plain
standard `iso` maps only the lower-case code `en`. -/
def caseDemoState : UniState :=
  ⟨[("iso".data, .plain [("en".data, "en".data)])],
   [("iso".data, [("en".data, "en".data)])]⟩

/-- C10: the standard-name argument is matched case-insensitively (the name
is lowercased before lookup, so `s` and `s.upper()` resolve via the same
standard table, and `encode(s)` equals `encode(s.upper())`), while language
codes are matched case-sensitively — with only `en` registered in a plain
standard, looking up `EN` fails while `en` succeeds. -/
theorem C10_standard_name_lowercased_code_exact :
    (∀ (st : UniState) (standard : S),
      alookup st.to_internal (lowerS (upperS standard)) =
        alookup st.to_internal (lowerS standard)) ∧
    (∀ (st : UniState) (c standard : S) (t : StdTable),
      alookup st.to_internal (lowerS standard) = some t →
      languageCodeNew st c standard = stdTableGet t c ∧
      languageCodeNew st c (upperS standard) = stdTableGet t c) ∧
    (∀ (st : UniState) (u standard : S),
      encodeFrom st u standard = encodeFrom st u (upperS standard)) ∧
    languageCodeNew caseDemoState "EN".data "iso".data = .error (.keyError "EN".data) ∧
    languageCodeNew caseDemoState "en".data "iso".data = .ok "en".data ∧
    languageCodeNew caseDemoState "en".data "ISO".data = .ok "en".data := by
  refine ⟨?_, ?_, ?_, by decide, by decide, by decide⟩
  · intro st standard
    rw [lowerS_upperS]
  · intro st c standard t h
    constructor
    · unfold languageCodeNew
      rw [h]
    · unfold languageCodeNew
      rw [lowerS_upperS, h]
  · intro st u standard
    unfold encodeFrom
    rw [lowerS_upperS]

/-- Witness for C10: the table-resolution conjunct applied at the concrete
demo state and standard name `iso`. -/
theorem C10_standard_name_lowercased_code_exact_witness :
    languageCodeNew caseDemoState "en".data "iso".data =
      stdTableGet (.plain [("en".data, "en".data)]) "en".data ∧
    languageCodeNew caseDemoState "en".data (upperS "iso".data) =
      stdTableGet (.plain [("en".data, "en".data)]) "en".data :=
  C10_standard_name_lowercased_code_exact.2.1 caseDemoState "en".data "iso".data
    (.plain [("en".data, "en".data)]) (by decide)

/-! ### Relating the string-chunking of the parser to hyphen-split pieces -/

theorem pySplit_ne_nil (c : S) : pySplit c ≠ [] := by
  induction c with
  | nil => simp [pySplit]
  | cons x xs ih =>
    unfold pySplit
    by_cases hx : x = '-'
    · simp [hx]
    · simp only [hx, if_false]
      cases hr : pySplit xs with
      | nil => simp
      | cons h t => simp

theorem nextChunk_no_hyphen (c : S) (h : '-' ∉ c) : nextChunk c = (c, []) := by
  induction c with
  | nil => rfl
  | cons x xs ih =>
    simp only [List.mem_cons, not_or] at h
    have hx : ¬ x = '-' := fun hh => h.1 hh.symm
    unfold nextChunk
    rw [if_neg hx, ih h.2]

theorem pySplit_no_hyphen (c : S) (h : '-' ∉ c) : pySplit c = [c] := by
  induction c with
  | nil => rfl
  | cons x xs ih =>
    simp only [List.mem_cons, not_or] at h
    have hx : ¬ x = '-' := fun hh => h.1 hh.symm
    unfold pySplit
    rw [ih h.2]
    simp [hx]

theorem nextChunk_hyphen (c : S) (h : '-' ∈ c) :
    c = (nextChunk c).1 ++ '-' :: (nextChunk c).2 ∧ '-' ∉ (nextChunk c).1 := by
  induction c with
  | nil => simp at h
  | cons x xs ih =>
    by_cases hx : x = '-'
    · subst hx
      simp [nextChunk]
    · have hxs : '-' ∈ xs := by
        rcases List.mem_cons.mp h with h' | h'
        · exact absurd h'.symm hx
        · exact h'
      obtain ⟨ha, hb⟩ := ih hxs
      rcases hnc : nextChunk xs with ⟨a, b⟩
      rw [hnc] at ha hb
      unfold nextChunk
      rw [if_neg hx, hnc]
      dsimp only at ha hb ⊢
      refine ⟨?_, ?_⟩
      · rw [ha, List.cons_append]
      · simp only [List.mem_cons, not_or]
        exact ⟨fun hh => hx hh.symm, hb⟩

theorem pySplit_append_hyphen (p r : S) (hp : '-' ∉ p) :
    pySplit (p ++ '-' :: r) = p :: pySplit r := by
  induction p with
  | nil => simp [pySplit]
  | cons x xs ih =>
    simp only [List.mem_cons, not_or] at hp
    have hx : ¬ x = '-' := fun hh => hp.1 hh.symm
    rw [List.cons_append]
    simp only [pySplit]
    rw [ih hp.2]
    simp [hx]

theorem pySplit_hyphen (c : S) (h : '-' ∈ c) :
    pySplit c = (nextChunk c).1 :: pySplit (nextChunk c).2 := by
  obtain ⟨ha, hb⟩ := nextChunk_hyphen c h
  conv_lhs => rw [ha]
  exact pySplit_append_hyphen _ _ hb

theorem joinH_cons (p : S) (l : List S) (h : l ≠ []) :
    joinH (p :: l) = p ++ '-' :: joinH l := by
  cases l with
  | nil => exact absurd rfl h
  | cons a t => rfl

theorem joinH_pySplit (c : S) : joinH (pySplit c) = c := by
  induction c with
  | nil => rfl
  | cons x xs ih =>
    by_cases hx : x = '-'
    · subst hx
      unfold pySplit
      rw [if_pos rfl, joinH_cons _ _ (pySplit_ne_nil xs), ih]
      rfl
    · unfold pySplit
      rw [if_neg hx]
      rcases hr : pySplit xs with _ | ⟨h₀, t⟩
      · exact absurd hr (pySplit_ne_nil xs)
      · rw [hr] at ih
        cases t with
        | nil =>
          simp only [joinH] at ih ⊢
          rw [ih]
        | cons t₀ ts =>
          rw [joinH_cons _ _ (by simp)] at ih
          rw [joinH_cons _ _ (by simp)]
          rw [List.cons_append, ih]

/-- The parser state `(next, code)` holds exactly the pieces `qs`, in order:
`next` is the first piece and `code` the undissected rest. -/
def repState (next code : S) : List S → Prop
  | [] => next = [] ∧ code = []
  | q :: qt => next = q ∧ ((qt = [] ∧ code = []) ∨ (qt ≠ [] ∧ pySplit code = qt))

theorem rep_of_pySplit (r : S) (qs : List S) (h : pySplit r = qs) (hne : qs ≠ []) :
    repState (nextChunk r).1 (nextChunk r).2 qs := by
  cases qs with
  | nil => exact absurd rfl hne
  | cons q qt =>
    cases qt with
    | nil =>
      have hno : '-' ∉ r := by
        intro hmem
        rw [pySplit_hyphen r hmem] at h
        have hne2 := pySplit_ne_nil (nextChunk r).2
        simp at h
        exact hne2 h.2
      rw [pySplit_no_hyphen r hno] at h
      simp at h
      rw [nextChunk_no_hyphen r hno]
      exact ⟨h, Or.inl ⟨rfl, rfl⟩⟩
    | cons q₂ qt' =>
      have hmem : '-' ∈ r := by
        by_contra hno
        rw [pySplit_no_hyphen r hno] at h
        simp at h
      rw [pySplit_hyphen r hmem] at h
      have h1 : (nextChunk r).1 = q := (List.cons.inj h).1
      have h2 : pySplit (nextChunk r).2 = q₂ :: qt' := (List.cons.inj h).2
      exact ⟨h1, Or.inr ⟨by simp, h2⟩⟩

theorem rep_step (next code : S) (q : S) (qt : List S)
    (h : repState next code (q :: qt)) :
    repState (nextChunk code).1 (nextChunk code).2 qt := by
  obtain ⟨hn, hrest⟩ := h
  rcases hrest with ⟨hqt, hcode⟩ | ⟨hqt, hps⟩
  · subst hqt
    subst hcode
    exact ⟨rfl, rfl⟩
  · exact rep_of_pySplit code qt hps hqt

/-! ### Spec-side staged subtag matching -/

/-- Spec-side single optional match: a matching head piece is consumed
(exactly one piece), a non-matching head is left for the next stage. -/
def matchOne (reg : List (S × SubtagEntry)) : List S → Option SubtagEntry × List S
  | [] => (none, [])
  | p :: ps =>
    match alookup reg p with
    | some e => (some e, ps)
    | none => (none, p :: ps)

/-- Spec-side repeated variant matching: consume matching pieces from the
front, stop at the first non-match. -/
def matchMany (reg : List (S × SubtagEntry)) : List S → List SubtagEntry × List S
  | [] => ([], [])
  | p :: ps =>
    match alookup reg p with
    | some e =>
      let (es, rest) := matchMany reg ps
      (e :: es, rest)
    | none => ([], p :: ps)

theorem parseSubtag_rep (reg : List (S × SubtagEntry)) (hreg : alookup reg [] = none)
    (next code : S) (qs : List S) (h : repState next code qs) :
    (parseSubtag next code reg).1 = (matchOne reg qs).1 ∧
    repState (parseSubtag next code reg).2.1 (parseSubtag next code reg).2.2
      (matchOne reg qs).2 := by
  cases qs with
  | nil =>
    obtain ⟨hn, hc⟩ := h
    subst hn
    subst hc
    simp only [parseSubtag, matchOne]
    rw [hreg]
    exact ⟨rfl, rfl, rfl⟩
  | cons q qt =>
    have hn : next = q := h.1
    subst hn
    cases hl : alookup reg next with
    | some e =>
      have hrep := rep_step next code next qt h
      rcases hnc : nextChunk code with ⟨n', c'⟩
      rw [hnc] at hrep
      simp only [parseSubtag, matchOne]
      rw [hl, hnc]
      exact ⟨rfl, hrep⟩
    | none =>
      simp only [parseSubtag, matchOne]
      rw [hl]
      exact ⟨rfl, h⟩

theorem parseVariantsF_rep (reg : List (S × SubtagEntry)) (hreg : alookup reg [] = none)
    (qs : List S) (fuel : Nat) (next code : S)
    (h : repState next code qs) (hfuel : qs.length < fuel) :
    (parseVariantsF fuel next code reg).1 = (matchMany reg qs).1 ∧
    repState (parseVariantsF fuel next code reg).2.1
      (parseVariantsF fuel next code reg).2.2 (matchMany reg qs).2 := by
  induction qs generalizing fuel next code with
  | nil =>
    obtain ⟨hn, hc⟩ := h
    subst hn
    subst hc
    cases fuel with
    | zero => exact absurd hfuel (by simp)
    | succ f =>
      simp only [parseVariantsF, matchMany]
      rw [hreg]
      exact ⟨rfl, rfl, rfl⟩
  | cons q qt ih =>
    have hn : next = q := h.1
    subst hn
    cases fuel with
    | zero => exact absurd hfuel (by simp)
    | succ f =>
      cases hl : alookup reg next with
      | none =>
        simp only [parseVariantsF, matchMany]
        rw [hl]
        exact ⟨rfl, h⟩
      | some e =>
        have hrep := rep_step next code next qt h
        rcases hnc : nextChunk code with ⟨n', c'⟩
        rw [hnc] at hrep
        have hf : qt.length < f := by
          simpa using Nat.lt_of_succ_lt_succ hfuel
        obtain ⟨ih1, ih2⟩ := ih f n' c' hrep hf
        simp only [parseVariantsF, matchMany]
        rw [hl, hnc]
        rcases hpv : parseVariantsF f n' c' reg with ⟨vs, nc⟩
        rcases hmm : matchMany reg qt with ⟨es, rest⟩
        rw [hpv, hmm] at ih1 ih2
        exact ⟨by simpa using ih1, ih2⟩

/-! ### Characterizing the full parse pipeline on pieces -/

theorem pySplit_length (c : S) : (pySplit c).length ≤ c.length + 1 := by
  induction c with
  | nil => simp [pySplit]
  | cons x xs ih =>
    by_cases hx : x = '-'
    · subst hx
      have hred : pySplit ('-' :: xs) = [] :: pySplit xs := rfl
      rw [hred]
      simp only [List.length_cons] at ih ⊢
      omega
    · simp only [pySplit]
      rw [if_neg hx]
      rcases hr : pySplit xs with _ | ⟨h, t⟩
      · exact absurd hr (pySplit_ne_nil xs)
      · rw [hr] at ih
        simp only [List.length_cons] at ih ⊢
        omega

theorem matchOne_mem (reg : List (S × SubtagEntry)) (l : List S) :
    ∀ x ∈ (matchOne reg l).2, x ∈ l := by
  cases l with
  | nil => simp [matchOne]
  | cons p ps =>
    cases hl : alookup reg p with
    | some e =>
      simp only [matchOne, hl]
      exact fun x hx => List.mem_cons_of_mem _ hx
    | none =>
      simp only [matchOne, hl]
      exact fun x hx => hx

theorem matchMany_mem (reg : List (S × SubtagEntry)) (l : List S) :
    ∀ x ∈ (matchMany reg l).2, x ∈ l := by
  induction l with
  | nil => simp [matchMany]
  | cons p ps ih =>
    cases hl : alookup reg p with
    | some e =>
      rcases hmm : matchMany reg ps with ⟨es, rest⟩
      rw [hmm] at ih
      simp only [matchMany, hl, hmm]
      exact fun x hx => List.mem_cons_of_mem _ (ih x hx)
    | none =>
      simp only [matchMany, hl]
      exact fun x hx => hx

theorem repState_fuel (next code : S) (qs : List S)
    (h : repState next code qs) (hne : [] ∉ qs) :
    qs.length < next.length + code.length + 2 := by
  cases qs with
  | nil => simp
  | cons q qt =>
    obtain ⟨hn, hrest⟩ := h
    subst hn
    have hq : next ≠ [] := by
      intro hq'
      apply hne
      rw [hq']
      exact List.mem_cons_self _ _
    have hnl : 1 ≤ next.length := by
      cases next with
      | nil => exact absurd rfl hq
      | cons a b => simp
    rcases hrest with ⟨hqt, _⟩ | ⟨_, hps⟩
    · subst hqt
      simp only [List.length_cons, List.length_nil]
      omega
    · have := pySplit_length code
      rw [hps] at this
      simp only [List.length_cons] at this ⊢
      omega

theorem nextChunk_fst_pySplit (c : S) (q : S) (qs : List S) (h : pySplit c = q :: qs) :
    (nextChunk c).1 = q ∧
    repState (nextChunk (nextChunk c).2).1 (nextChunk (nextChunk c).2).2 qs := by
  by_cases hm : '-' ∈ c
  · rw [pySplit_hyphen c hm] at h
    have h1 : (nextChunk c).1 = q := (List.cons.inj h).1
    have h2 : pySplit (nextChunk c).2 = qs := (List.cons.inj h).2
    refine ⟨h1, ?_⟩
    apply rep_of_pySplit _ _ h2
    rw [← h2]
    exact pySplit_ne_nil _
  · rw [pySplit_no_hyphen c hm] at h
    have h1 : c = q := (List.cons.inj h).1
    have h2 : qs = [] := ((List.cons.inj h).2).symm
    subst h2
    rw [nextChunk_no_hyphen c hm]
    exact ⟨h1, rfl, rfl⟩

/-- C6 (and the amended C3 share these preconditions): with the input's
lowercasing neither grandfathered nor `x-`-prefixed, its pieces all nonempty
and the first piece a registered language, `parse` runs exactly one optional
match each against Extlang, then Script, then Region (each consuming exactly
one piece, a non-match leaving the piece for the next stage), then repeated
Variant matches, and hands any remainder to extension parsing — as computed
piece-wise by `matchOne`/`matchMany`. -/
theorem C6_fixed_order_single_greedy_matches
    (reg : Registry) (s : S) (q : S) (qs : List S) (lentry : SubtagEntry)
    (e₁ e₂ e₃ : Option SubtagEntry) (r₁ r₂ r₃ : List S)
    (vars : List SubtagEntry) (r₄ : List S)
    (hgf : alookup reg.grandfathered (lowerS s) = none)
    (hx : startsWithXDash (lowerS s) = false)
    (hps : pySplit (lowerS s) = q :: qs)
    (hnonempty : [] ∉ q :: qs)
    (hlang : alookup reg.language q = some lentry)
    (hreg1 : alookup reg.extlang [] = none)
    (hreg2 : alookup reg.script [] = none)
    (hreg3 : alookup reg.region [] = none)
    (hreg4 : alookup reg.variant [] = none)
    (hm1 : matchOne reg.extlang qs = (e₁, r₁))
    (hm2 : matchOne reg.script r₁ = (e₂, r₂))
    (hm3 : matchOne reg.region r₂ = (e₃, r₃))
    (hm4 : matchMany reg.variant r₃ = (vars, r₄)) :
    parseCode reg s =
      match r₄ with
      | [] => .ok { language := some lentry, extlang := e₁, script := e₂, region := e₃,
                    variants := vars, grandfathered := none, extensions := [] }
      | [g] => .error (.garbage g)
      | g :: gs =>
        (parseExtensions (joinH (g :: gs))).map fun exts =>
          { language := some lentry, extlang := e₁, script := e₂, region := e₃,
            variants := vars, grandfathered := none, extensions := exts } := by
  have hqs_sub : ∀ x ∈ qs, x ∈ q :: qs := fun x hx' => List.mem_cons_of_mem _ hx'
  have hr₁_sub : ∀ x ∈ r₁, x ∈ qs := by
    have := matchOne_mem reg.extlang qs
    rw [hm1] at this
    exact this
  have hr₂_sub : ∀ x ∈ r₂, x ∈ r₁ := by
    have := matchOne_mem reg.script r₁
    rw [hm2] at this
    exact this
  have hr₃_sub : ∀ x ∈ r₃, x ∈ r₂ := by
    have := matchOne_mem reg.region r₂
    rw [hm3] at this
    exact this
  have hr₄_sub : ∀ x ∈ r₄, x ∈ r₃ := by
    have := matchMany_mem reg.variant r₃
    rw [hm4] at this
    exact this
  have hr₃_ne : [] ∉ r₃ := fun hmem =>
    hnonempty (hqs_sub _ (hr₁_sub _ (hr₂_sub _ (hr₃_sub _ hmem))))
  have hr₄_ne : [] ∉ r₄ := fun hmem => hr₃_ne (hr₄_sub _ hmem)
  obtain ⟨hq0, hrep0⟩ := nextChunk_fst_pySplit (lowerS s) q qs hps
  have hany : ((pySplit (lowerS s)).any fun c => c = []) = false := by
    rw [hps]
    rw [List.any_eq_false]
    intro x hx'
    simp only [decide_eq_true_eq]
    intro hxe
    rw [hxe] at hx'
    exact hnonempty hx' 
  simp only [parseCode]
  rw [hgf, hx]
  simp only [Bool.false_eq_true, if_false, hany]
  rcases hnc1 : nextChunk (lowerS s) with ⟨lang0, code1⟩
  rw [hnc1] at hq0
  simp only at hq0
  subst hq0
  rcases hnc2 : nextChunk code1 with ⟨next0, code2⟩
  rw [hnc1, hnc2] at hrep0
  simp only at hrep0
  simp only [hlang]
  have h1 := parseSubtag_rep reg.extlang hreg1 next0 code2 qs hrep0
  rcases hsub1 : parseSubtag next0 code2 reg.extlang with ⟨ee1, n1, c1⟩
  rw [hsub1, hm1] at h1
  simp only at h1
  obtain ⟨he1, hrep1⟩ := h1
  subst he1
  have h2 := parseSubtag_rep reg.script hreg2 n1 c1 r₁ hrep1
  rcases hsub2 : parseSubtag n1 c1 reg.script with ⟨ee2, n2, c2⟩
  rw [hsub2, hm2] at h2
  simp only at h2
  obtain ⟨he2, hrep2⟩ := h2
  subst he2
  have h3 := parseSubtag_rep reg.region hreg3 n2 c2 r₂ hrep2
  rcases hsub3 : parseSubtag n2 c2 reg.region with ⟨ee3, n3, c3⟩
  rw [hsub3, hm3] at h3
  simp only at h3
  obtain ⟨he3, hrep3⟩ := h3
  subst he3
  have hfuel := repState_fuel n3 c3 r₃ hrep3 hr₃_ne
  have h4 := parseVariantsF_rep reg.variant hreg4 r₃ (n3.length + c3.length + 2) n3 c3
    hrep3 hfuel
  rcases hsub4 : parseVariantsF (n3.length + c3.length + 2) n3 c3 reg.variant
    with ⟨vv, n4, c4⟩
  rw [hsub4, hm4] at h4
  simp only at h4
  obtain ⟨hv4, hrep4⟩ := h4
  subst hv4
  cases r₄ with
  | nil =>
    obtain ⟨hn4, hc4⟩ := hrep4
    subst hn4
    subst hc4
    simp
  | cons g gt =>
    have hg : g ≠ [] := by
      intro hg'
      apply hr₄_ne
      rw [← hg']
      exact List.mem_cons_self _ _
    obtain ⟨hn4, hrest⟩ := hrep4
    subst hn4
    cases gt with
    | nil =>
      rcases hrest with ⟨_, hc4⟩ | ⟨habs, _⟩
      · subst hc4
        simp [hg]
      · exact absurd rfl habs
    | cons g₂ gs =>
      rcases hrest with ⟨habs, _⟩ | ⟨_, hps4⟩
      · exact absurd habs (by simp)
      · have hc4ne : c4 ≠ [] := by
          intro hc
          rw [hc] at hps4
          have hgg : g₂ = [] := (List.cons.inj hps4.symm).1
          apply hr₄_ne
          rw [← hgg]
          exact List.mem_cons_of_mem _ (List.mem_cons_self g₂ gs)
        have hjoin : n4 ++ '-' :: c4 = joinH (n4 :: g₂ :: gs) := by
          rw [joinH_cons _ _ (by simp)]
          have hjp : joinH (pySplit c4) = c4 := joinH_pySplit c4
          rw [hps4] at hjp
          rw [hjp]
        simp only [hg, hc4ne, ne_eq, not_false_iff, true_and, if_false, and_false]
        rw [hjoin]
        simp [hg]

/-- Witness for C6 at the concrete tag `en-hant-us-scouse-a-bb`: extlang
skipped (no match), script `hant` and region `us` each consume one piece,
variant `scouse` consumed, remainder `a-bb` parsed as an extension. -/
theorem C6_fixed_order_single_greedy_matches_witness :
    parseCode sampleRegistry "en-hant-us-scouse-a-bb".data =
      (parseExtensions (joinH ["a".data, "bb".data])).map (fun exts =>
        { language := some ⟨"en".data, none⟩, extlang := none,
          script := some ⟨"hant".data, none⟩, region := some ⟨"us".data, none⟩,
          variants := [⟨"scouse".data, none⟩], grandfathered := none,
          extensions := exts }) :=
  C6_fixed_order_single_greedy_matches sampleRegistry ("en-hant-us-scouse-a-bb".data)
    ("en".data) ["hant".data, "us".data, "scouse".data, "a".data, "bb".data]
    ⟨"en".data, none⟩ none (some ⟨"hant".data, none⟩) (some ⟨"us".data, none⟩)
    ["hant".data, "us".data, "scouse".data, "a".data, "bb".data]
    ["us".data, "scouse".data, "a".data, "bb".data]
    ["scouse".data, "a".data, "bb".data]
    [⟨"scouse".data, none⟩] ["a".data, "bb".data]
    (by decide) (by decide) (by decide) (by decide) (by decide) (by decide) (by decide)
    (by decide) (by decide) (by decide) (by decide) (by decide) (by decide)

/-- C3 (amended): for every input that is neither grandfathered nor an
`x-` tag, whose pieces are all nonempty, and whose first piece is not a
registered language subtag, `parse` fails with the invalid-primary-language
error — an error classified as `InvalidLanguageError` and not as
`MalformedTagError` — and never returns a ParsedTag.  (The nonempty-pieces
condition is required: the malformed-hyphen check precedes the language
lookup.) -/
theorem C3_unregistered_primary_language_rejected
    (reg : Registry) (s : S) (q : S) (qs : List S)
    (hgf : alookup reg.grandfathered (lowerS s) = none)
    (hx : startsWithXDash (lowerS s) = false)
    (hps : pySplit (lowerS s) = q :: qs)
    (hnonempty : [] ∉ q :: qs)
    (hlang : alookup reg.language q = none) :
    parseCode reg s = .error (.invalidPrimaryLanguage q) ∧
    (ParseError.invalidPrimaryLanguage q).isInvalidLanguageError = true ∧
    (ParseError.invalidPrimaryLanguage q).isMalformedTagError = false := by
  refine ⟨?_, rfl, rfl⟩
  obtain ⟨hq0, _⟩ := nextChunk_fst_pySplit (lowerS s) q qs hps
  have hany : ((pySplit (lowerS s)).any fun c => c = []) = false := by
    rw [hps]
    rw [List.any_eq_false]
    intro x hx'
    simp only [decide_eq_true_eq]
    intro hxe
    rw [hxe] at hx'
    exact hnonempty hx'
  simp only [parseCode]
  rw [hgf, hx]
  simp only [Bool.false_eq_true, if_false, hany]
  rcases hnc1 : nextChunk (lowerS s) with ⟨lang0, code1⟩
  rw [hnc1] at hq0
  simp only at hq0
  subst hq0
  simp [hlang]

/-- Counterexample to C3 as stated: `cheese--us` satisfies every premise of
the claim (not grandfathered, not `x-`, first piece `cheese` unregistered)
yet `parse` raises the malformed-hyphen `MalformedTagError`, not
`InvalidLanguageError`, because the empty-piece check runs first. -/
theorem C3_counterexample_cheese_double_hyphen :
    alookup sampleRegistry.grandfathered (lowerS ("cheese--us".data)) = none ∧
    startsWithXDash (lowerS ("cheese--us".data)) = false ∧
    (pySplit (lowerS ("cheese--us".data))).head? = some "cheese".data ∧
    alookup sampleRegistry.language "cheese".data = none ∧
    parseCode sampleRegistry "cheese--us".data = .error .malformedHyphen ∧
    ParseError.malformedHyphen.isInvalidLanguageError = false ∧
    ParseError.malformedHyphen.isMalformedTagError = true := by
  decide

/-- Witness for the amended C3 at the concrete input `cheese`. -/
theorem C3_unregistered_primary_language_rejected_witness :
    parseCode sampleRegistry "cheese".data =
      .error (.invalidPrimaryLanguage "cheese".data) ∧
    (ParseError.invalidPrimaryLanguage "cheese".data).isInvalidLanguageError = true ∧
    (ParseError.invalidPrimaryLanguage "cheese".data).isMalformedTagError = false :=
  C3_unregistered_primary_language_rejected sampleRegistry ("cheese".data)
    ("cheese".data) [] (by decide) (by decide) (by decide) (by decide) (by decide)

/-! ### Round-tripping through the BCP47 standard -/

/-- A table entry's unilangs code reverse-maps to the canonical
`language[-script][-region]` rendering of that entry's key: the reverse
dict is keyed by the (unique) table values. -/
theorem u2b_of_table (l r s : Option S) (u : S)
    (h : alookup BCP47_TO_UNILANGS (l, r, s) = some u) :
    alookup UNILANGS_TO_BCP47 u = some (joinH (pyFilterTruthy [l, s, r])) := by
  have hmem : ((l, r, s), u) ∈ BCP47_TO_UNILANGS := alookup_mem h
  have hrev : ((l, r, s), u) ∈ BCP47_TO_UNILANGS.reverse := List.mem_reverse.mpr hmem
  rw [alookup_u2b]
  have hsome : (BCP47_TO_UNILANGS.reverse.find? (fun kv => kv.2 = u)).isSome := by
    rw [List.find?_isSome]
    exact ⟨((l, r, s), u), hrev, by simp⟩
  cases hfind : BCP47_TO_UNILANGS.reverse.find? (fun kv => kv.2 = u) with
  | none =>
    rw [hfind] at hsome
    simp at hsome
  | some kv₀ =>
    have hpred : kv₀.2 = u := by simpa using List.find?_some hfind
    have hkvmem : kv₀ ∈ BCP47_TO_UNILANGS :=
      List.mem_reverse.mp (List.mem_of_find?_eq_some hfind)
    obtain ⟨row1, hrow1, hkv1⟩ := mem_bcp47Table kv₀ hkvmem
    obtain ⟨row2, hrow2, hkv2⟩ := mem_bcp47Table ((l, r, s), u) hmem
    have hval1 : row1.1 = u := by
      rw [hkv1] at hpred
      exact hpred
    have hval2 : row2.1 = u := by
      simpa using (congrArg Prod.snd hkv2).symm
    have hkeys : bcp47Key row1 = bcp47Key row2 :=
      bcp47Data_value_determines_key row1 hrow1 row2 hrow2 (hval1.trans hval2.symm)
    have hkey0 : kv₀.1 = (l, r, s) := by
      have e1 : kv₀.1 = bcp47Key row1 := congrArg Prod.fst hkv1
      have e2 : (l, r, s) = bcp47Key row2 := by
        simpa using congrArg Prod.fst hkv2
      rw [e1, hkeys, ← e2]
    simp only [Option.map_some']
    rw [hkey0]

/-- C9 (amended): decoding `en-gb` through the strict BCP47 standard and
re-encoding yields exactly `en-gb`; in general, whenever the parsed
`(language, region, script)` triple of a tag has an exact entry in the
table, re-encoding yields the canonical `language[-script][-region]`
rendering of that triple — so the round trip is the identity exactly for
tags already written in that canonical form with no extra subtags. -/
theorem C9_roundtrip_canonical_rendering :
    (∀ (l r s : Option S) (u : S),
      alookup BCP47_TO_UNILANGS (l, r, s) = some u →
      alookup UNILANGS_TO_BCP47 u = some (joinH (pyFilterTruthy [l, s, r]))) ∧
    (∀ (reg : Registry) (k : S) (l r s : Option S) (u : S),
      convGetParts reg k = .ok (l, r, s) →
      alookup BCP47_TO_UNILANGS (l, r, s) = some u →
      bcp47RoundTrip reg k = .ok (joinH (pyFilterTruthy [l, s, r]))) ∧
    bcp47RoundTrip sampleRegistry "en-gb".data = .ok "en-gb".data := by
  have hb : ∀ (reg : Registry) (k : S) (l r s : Option S) (u : S),
      convGetParts reg k = .ok (l, r, s) →
      alookup BCP47_TO_UNILANGS (l, r, s) = some u →
      bcp47RoundTrip reg k = .ok (joinH (pyFilterTruthy [l, s, r])) := by
    intro reg k l r s u h1 h2
    have h5 : strictConvGetItem reg k = .ok u := by
      rw [strictConvGetItem_of_parts h1]
      exact strictLookup_some h2
    exact bcp47RoundTrip_of_decode h5 (u2b_of_table l r s u h2)
  refine ⟨u2b_of_table, hb, ?_⟩
  have h1 : convGetParts sampleRegistry "en-gb".data =
      .ok (some "en".data, some "gb".data, none) := by decide
  have h2 : alookup BCP47_TO_UNILANGS (some "en".data, some "gb".data, none) =
      some "en-gb".data := by
    rw [alookup_bcp47Table]
    decide
  have h3 := hb sampleRegistry ("en-gb".data) (some "en".data) (some "gb".data) none
    ("en-gb".data) h1 h2
  have h4 : joinH (pyFilterTruthy [some "en".data, none, some "gb".data]) =
      "en-gb".data := by decide
  rw [h4] at h3
  exact h3

/-- Counterexample to C9 as stated: the tag `en-gb-x-foo` parses to the
triple `(en, gb, none)`, which has an exact entry in the table, yet the
round trip yields `en-gb`, not the original tag. -/
theorem C9_counterexample_extension_dropped :
    alookup BCP47_TO_UNILANGS (some "en".data, some "gb".data, none) =
      some "en-gb".data ∧
    convGetParts sampleRegistry "en-gb-x-foo".data =
      .ok (some "en".data, some "gb".data, none) ∧
    bcp47RoundTrip sampleRegistry "en-gb-x-foo".data = .ok "en-gb".data ∧
    "en-gb".data ≠ "en-gb-x-foo".data := by
  have h2 : alookup BCP47_TO_UNILANGS (some "en".data, some "gb".data, none) =
      some "en-gb".data := by
    rw [alookup_bcp47Table]
    decide
  refine ⟨h2, by decide, ?_, by decide⟩
  have h1 : convGetParts sampleRegistry "en-gb-x-foo".data =
      .ok (some "en".data, some "gb".data, none) := by decide
  have h3 := u2b_of_table (some "en".data) (some "gb".data) none ("en-gb".data) h2
  have h4 : joinH (pyFilterTruthy [some "en".data, none, some "gb".data]) =
      "en-gb".data := by decide
  rw [h4] at h3
  have h5 : strictConvGetItem sampleRegistry "en-gb-x-foo".data = .ok "en-gb".data := by
    rw [strictConvGetItem_of_parts h1]
    exact strictLookup_some h2
  exact bcp47RoundTrip_of_decode h5 h3

/-- Witness for C9: the reverse-rendering conjunct applied at the table
entry for `(en, gb, null)`. -/
theorem C9_roundtrip_canonical_rendering_witness :
    alookup UNILANGS_TO_BCP47 "en-gb".data =
      some (joinH (pyFilterTruthy [some "en".data, none, some "gb".data])) :=
  C9_roundtrip_canonical_rendering.1 (some "en".data) (some "gb".data) none
    ("en-gb".data) (by rw [alookup_bcp47Table]; decide)

end Unilangs
